import Mathlib

/-!
# Chat relay server: connection registry and protocol handler

A shallow embedding of `client_struct.h`, `pkt_struct.h` and the server side of
`confserver.cc`.

Conventions of the embedding.

* A byte is a natural number; fixed-size byte arrays are lists (`id` has 15
  entries, `message` has 128, `ident` has 15).
* `size_t` values are natural numbers; arithmetic that can wrap is written
  with an explicit `% 2 ^ 64`.
* A `client_t *` that points into the registry is the index of the slot it
  points to (`client_ref.slot`); the null pointer and a pointer variable that
  was never assigned are separate constructors.
* An access outside an array, or through a pointer that was never assigned,
  has no defined result in C; the embedding returns `Except.error` there.
  Two reads that leave an array are embedded as the program performs them,
  because every reply of the server depends on them: a string read on
  `packet.id` runs on through the fields of the packet (`pkt_id_mem`), and
  `send_packet` copies 127 bytes from the address of a shorter string literal
  and so sends the read-only data that follows the literal, which is a
  parameter of the embedding (`rodata_t`).
* System calls (`send`, `close`) are recorded as a list of `Action`s in the
  order in which they are issued; their return values are ignored by the source.
  Console logging is not recorded.
* What `realloc` does during `client_array_expand` is a parameter (`alloc_t`):
  each of the two calls may fail, resize the block at its address, or move it.
-/

namespace ChatServer

/-! ## Data model (`pkt_struct.h`, `client_struct.h`) -/

/-- Undefined behaviour that the embedding makes explicit. -/
inductive Fault where
  | outOfBounds
  | uninitialised
  deriving DecidableEq, Repr

/-- Wire packet `client_pkt_t`: 15 identity bytes, one opcode byte, 128 message bytes. -/
structure client_pkt_t where
  id : List Nat
  code : Nat
  message : List Nat
  deriving DecidableEq, Repr

/-- Peer address `struct sockaddr_in`, kept as its three fields. -/
structure sockaddr_in where
  sin_family : Nat
  sin_port : Nat
  sin_addr : Nat
  deriving DecidableEq, Repr

/-- Connection record `client_t`. -/
structure client_t where
  sockfd : Int
  address : sockaddr_in
  ident : List Nat
  is_identified : Bool
  deriving DecidableEq, Repr

/-- Registry `client_array_t`. The flag `free_indices[i]` is `true` when slot `i` holds a
live record and `false` when the slot may be overwritten. -/
structure client_array_t where
  clients : List client_t
  size : Nat
  capacity : Nat
  free_indices : List Bool
  deriving DecidableEq, Repr

/-- Value of a `client_t *` variable. -/
inductive client_ref where
  | uninit
  | null
  | slot (idx : Nat)
  deriving DecidableEq, Repr

/-- System calls issued by the server. -/
inductive Action where
  | send (sockfd : Int) (packet : client_pkt_t)
  | close (sockfd : Int)
  deriving DecidableEq, Repr

def CLIENT_IDENT : Nat := 1
def CLIENT_CONNECT : Nat := 2
def CLIENT_DISCONNECT : Nat := 3
def MESSAGE_TRANS : Nat := 4
def PRIVATE_MESSAGE : Nat := 5
def GENERAL_ERROR : Nat := 6
def CONNECT_ACK : Nat := 7
def INVALID_IDENT : Nat := 8
def INVALID_PM_IDENT : Nat := 9

def DEFAULT_EXPAND_SIZE : Nat := 16

/-- Bytes of the literal SERVER. -/
def SERVER_IDENT : List Nat := [83, 69, 82, 86, 69, 82]

/-- Modulus of `size_t` arithmetic. -/
def SIZE_MOD : Nat := 2 ^ 64

/-- All-zero byte array of the given length. -/
def zeros (n : Nat) : List Nat := List.replicate n 0

/-- All-zero address. -/
def zero_address : sockaddr_in := { sin_family := 0, sin_port := 0, sin_addr := 0 }

/-- Record whose bytes are all zero (`calloc`, `memset (..., 0, sizeof (client_t))`, `= {0}`). -/
def zero_client : client_t :=
  { sockfd := 0, address := zero_address, ident := zeros 15, is_identified := false }

/-- Packet whose bytes are all zero (`client_pkt_t packet = {0}`). -/
def zero_pkt : client_pkt_t := { id := zeros 15, code := 0, message := zeros 128 }

/-- The call `memcpy (dst, src, n)` on byte arrays: the first `n` bytes of `dst` are replaced by
the first `n` bytes of `src`. -/
def memcpy (dst src : List Nat) (n : Nat) : List Nat := src.take n ++ dst.drop n

/-- The C string that starts at the beginning of `mem`: the bytes before the first zero byte.
`mem` is the memory of the enclosing object from the pointer on; the read stops at the end of
that object. -/
def cstr (mem : List Nat) : List Nat := mem.takeWhile (fun b => b != 0)

/-- Memory readable through the pointer `packet.id`: the fields of `client_pkt_t` are byte
arrays laid out without padding, so a string read that finds no zero byte in `id` continues
through `code` and `message`. -/
def pkt_id_mem (packet : client_pkt_t) : List Nat := packet.id ++ packet.code :: packet.message

/-- The call `strcmp (a, b) == 0`. -/
def streq (a b : List Nat) : Bool := cstr a == cstr b

/-! ## Registry operations (`client_struct.h`) -/

/-- Source function `client_array_create`, for the case that both `calloc` calls succeed.
`size` is not assigned by the source and keeps the value from the caller. -/
def client_array_create (clients : client_array_t) (capacity : Nat) : client_array_t × Bool :=
  ({ clients := List.replicate capacity zero_client
     size := clients.size
     capacity := capacity
     free_indices := List.replicate capacity false }, true)

/-- Result of one `realloc` call: `NULL` (the block is untouched), the block resized at its
address, or the contents copied to a new block and the old block released. -/
inductive realloc_result where
  | null
  | same
  | moved
  deriving DecidableEq, Repr

/-- What the allocator does during one call of `client_array_expand`: the results of the
`realloc` call on `clients->clients` and of the one on `clients->free_indices`, and the
uninitialised content `fresh i` of the `i`-th new record. -/
structure alloc_t where
  clients_block : realloc_result
  flags_block : realloc_result
  fresh : Nat → client_t

/-- The first `realloc` returns `NULL`. -/
def alloc_null : alloc_t :=
  { clients_block := .null, flags_block := .null, fresh := fun _ => zero_client }

/-- Both blocks are resized at their addresses. -/
def alloc_same : alloc_t :=
  { clients_block := .same, flags_block := .same, fresh := fun _ => zero_client }

/-- The block of records is moved, the block of flags is resized at its address. -/
def alloc_moved : alloc_t :=
  { clients_block := .moved, flags_block := .same, fresh := fun _ => zero_client }

/-- Source function `client_array_expand`. The source compares the pointers that `realloc`
returns with `NULL` and discards them, so the registry keeps the old addresses: a block that
`realloc` moved is released storage afterwards. Such a stale array is represented by the empty
list, so that every later access through it is an access outside a live array; the `memset`
on a stale flag block is reported at once. The second `realloc` is not called when the first
returns `NULL`. When `capacity + size` wraps, the blocks are resized to fewer than `capacity`
entries and the `memset` falls outside the flag block; this is reported at once as well. The
byte counts `sizeof (...) * new_size` are taken not to wrap. The Boolean result is the flag
`failed` of the source. -/
def client_array_expand (clients : client_array_t) (size : Nat) (alloc : alloc_t) :
    Except Fault (client_array_t × Bool) :=
  match alloc.clients_block with
  | .null => .ok (clients, true)
  | r1 =>
    if clients.capacity + size ≥ SIZE_MOD then .error .outOfBounds
    else
      match alloc.flags_block with
      | .null =>
        .ok ({ clients := if r1 = .moved then [] else clients.clients
               size := clients.size
               capacity := clients.capacity
               free_indices := clients.free_indices }, true)
      | .moved => .error .outOfBounds
      | .same =>
        .ok ({ clients :=
                 if r1 = .moved then []
                 else clients.clients ++ (List.range size).map alloc.fresh
               size := clients.size
               capacity := (clients.capacity + size) % SIZE_MOD
               free_indices := clients.free_indices ++ List.replicate size false }, false)

/-- Scan loop of `client_array_add` from index `i` with `n` iterations left: the first index
whose flag is `false`, or `none` when the loop runs to the end. -/
def add_scan (clients : client_array_t) : Nat → Nat → Except Fault (Option Nat)
  | _, 0 => .ok none
  | i, n + 1 =>
    match clients.free_indices[i]? with
    | none => .error .outOfBounds
    | some false => .ok (some i)
    | some true => add_scan clients (i + 1) n

/-- Tail of `client_array_add`: copy the record into slot `free_index`, set its flag,
increment `size`. -/
def add_store (clients : client_array_t) (free_index : Nat) (client : client_t) :
    Except Fault (client_array_t × Bool) :=
  if free_index < clients.clients.length ∧ free_index < clients.free_indices.length then
    .ok ({ clients := clients.clients.set free_index client
           size := (clients.size + 1) % SIZE_MOD
           capacity := clients.capacity
           free_indices := clients.free_indices.set free_index true }, true)
  else .error .outOfBounds

/-- Source function `client_array_add`. -/
def client_array_add (clients : client_array_t) (client : client_t)
    (alloc : alloc_t) : Except Fault (client_array_t × Bool) :=
  match add_scan clients 0 clients.capacity with
  | .error e => .error e
  | .ok (some free_index) => add_store clients free_index client
  | .ok none =>
    let current_index := clients.capacity
    match client_array_expand clients DEFAULT_EXPAND_SIZE alloc with
    | .error e => .error e
    | .ok r =>
      if !r.2 then .ok (r.1, false)
      else add_store r.1 (current_index + 1) client

/-- Source function `client_array_get`: `NULL` or a pointer to slot `idx`. -/
def client_array_get (clients : client_array_t) (idx : Nat) : Except Fault client_ref :=
  if (idx + 1) % SIZE_MOD ≥ clients.capacity then .ok .null
  else
    match clients.free_indices[idx]? with
    | none => .error .outOfBounds
    | some false => .ok .null
    | some true => .ok (.slot idx)

/-- Source function `client_array_remove`. -/
def client_array_remove (clients : client_array_t) (idx : Nat) :
    Except Fault (client_array_t × Bool) :=
  if (idx + 1) % SIZE_MOD ≥ clients.capacity then .ok (clients, false)
  else
    match clients.free_indices[idx]? with
    | none => .error .outOfBounds
    | some false => .ok (clients, false)
    | some true =>
      if idx < clients.clients.length then
        .ok ({ clients := clients.clients.set idx zero_client
               size := (clients.size + SIZE_MOD - 1) % SIZE_MOD
               capacity := clients.capacity
               free_indices := clients.free_indices.set idx false }, true)
      else .error .outOfBounds

/-- Source function `client_array_remove_byref`, for a pointer to the start of slot `idx`
(the index the source computes from the address). -/
def client_array_remove_byref (clients : client_array_t) (idx : Nat) :
    Except Fault (client_array_t × Bool) :=
  match clients.free_indices[idx]? with
  | none => .error .outOfBounds
  | some false => .ok (clients, false)
  | some true =>
    if idx < clients.clients.length then
      .ok ({ clients := clients.clients.set idx zero_client
             size := (clients.size + SIZE_MOD - 1) % SIZE_MOD
             capacity := clients.capacity
             free_indices := clients.free_indices.set idx false }, true)
    else .error .outOfBounds

/-- Scan loop of `client_array_contains_ident` from index `i` with `n` iterations left: the
first occupied slot whose stored identity compares equal to `ident`. The test
`ident == NULL` of the source is on an array and never holds. The stored identity is read
up to the end of the 15-byte array `ident`; every write to that array in the source copies 14
bytes into a zeroed record, so its last byte is zero. -/
def contains_scan (clients : client_array_t) (ident : List Nat) :
    Nat → Nat → Except Fault (Option Nat)
  | _, 0 => .ok none
  | i, n + 1 =>
    match clients.free_indices[i]? with
    | none => .error .outOfBounds
    | some false => contains_scan clients ident (i + 1) n
    | some true =>
      match clients.clients[i]? with
      | none => .error .outOfBounds
      | some cl =>
        if streq cl.ident ident then .ok (some i)
        else contains_scan clients ident (i + 1) n

/-- Source function `client_array_contains_ident`. `client = none` is the call with a `NULL`
out-parameter; `client = some r` is the call with the address of a pointer variable that
currently holds `r`. The result is the returned flag and the value of that variable after
the call. `ident` is the memory readable through the `char *` argument. -/
def client_array_contains_ident (clients : client_array_t) (client : Option client_ref)
    (ident : List Nat) : Except Fault (Bool × Option client_ref) :=
  match contains_scan clients ident 0 clients.capacity with
  | .error e => .error e
  | .ok (some i) => .ok (true, client.map (fun _ => client_ref.slot i))
  | .ok none =>
    if streq ident SERVER_IDENT then .ok (true, client) else .ok (false, client)

/-! ## Packet construction and delivery (`confserver.cc`) -/

/-- Read-only data of the program behind its string literals: `ro s i` is the byte at offset
`i` after the terminator of the literal `s`. The content depends on how the program was
compiled and linked and is not determined by the source. -/
abbrev rodata_t : Type := List Nat → Nat → Nat

/-- Memory readable through a pointer to a string literal: the bytes of the literal, its
terminator, and the read-only data that follows. The source copies 127 bytes from that address
whatever the length of the literal. -/
def literal_mem (ro : rodata_t) (s : List Nat) : List Nat :=
  s ++ 0 :: (List.range 127).map (ro s)

def MSG_USER_CONNECTED : List Nat :=
  [85, 115, 101, 114, 32, 99, 111, 110, 110, 101, 99, 116, 101, 100]
def MSG_USER_DISCONNECTED : List Nat :=
  [85, 115, 101, 114, 32, 100, 105, 115, 99, 111, 110, 110, 101, 99, 116, 101, 100]
def MSG_UNKNOWN : List Nat := [40, 117, 110, 107, 110, 111, 119, 110, 41]
def MSG_EMPTY_IDENTITY : List Nat :=
  [69, 109, 112, 116, 121, 32, 105, 100, 101, 110, 116, 105, 116, 121, 32, 100, 105, 115, 97,
   108, 108, 111, 119, 101, 100]
def MSG_IDENTITY_EXISTS : List Nat :=
  [73, 100, 101, 110, 116, 105, 116, 121, 32, 97, 108, 114, 101, 97, 100, 121, 32, 101, 120,
   105, 115, 116, 115]
def MSG_WELCOME : List Nat :=
  [87, 101, 108, 99, 111, 109, 101, 32, 116, 111, 32, 116, 104, 101, 32, 99, 104, 97, 116,
   115, 101, 114, 118, 101, 114]
def MSG_IDENTIFY_TO_CHAT : List Nat :=
  [77, 117, 115, 116, 32, 98, 101, 32, 105, 100, 101, 110, 116, 105, 102, 105, 101, 100, 32,
   116, 111, 32, 99, 104, 97, 116]
def MSG_IDENTIFY_TO_PM : List Nat :=
  [77, 117, 115, 116, 32, 98, 101, 32, 105, 100, 101, 110, 116, 105, 102, 105, 101, 100, 32,
   116, 111, 32, 80, 77]
def MSG_NO_SUCH_USER : List Nat :=
  [85, 115, 101, 114, 32, 100, 111, 101, 115, 110, 39, 116, 32, 101, 120, 105, 115, 116]

/-- Loop of `broadcast_message` from index `free_idx` with `n` iterations left. -/
def broadcast_loop (clients : client_array_t) (src : client_ref) (packet : client_pkt_t) :
    Nat → Nat → Except Fault (List Action)
  | _, 0 => .ok []
  | free_idx, n + 1 =>
    match clients.free_indices[free_idx]? with
    | none => .error .outOfBounds
    | some false => broadcast_loop clients src packet (free_idx + 1) n
    | some true =>
      if src = client_ref.slot free_idx then broadcast_loop clients src packet (free_idx + 1) n
      else
        match clients.clients[free_idx]? with
        | none => .error .outOfBounds
        | some cl =>
          match broadcast_loop clients src packet (free_idx + 1) n with
          | .error e => .error e
          | .ok rest => .ok (Action.send cl.sockfd packet :: rest)

/-- Source function `broadcast_message`; `src` is the argument named `from` in the source. -/
def broadcast_message (clients : client_array_t) (src : client_ref) (packet : client_pkt_t) :
    Except Fault (List Action) :=
  broadcast_loop clients src packet 0 clients.capacity

/-- Source function `send_packet`; `message = none` is the call with `NULL`. -/
def send_packet (sockfd : Int) (code : Nat) (message : Option (List Nat)) : Action :=
  let packet := zero_pkt
  let packet := { packet with id := memcpy packet.id SERVER_IDENT SERVER_IDENT.length }
  let packet :=
    match message with
    | some m => { packet with message := memcpy packet.message m 127 }
    | none => packet
  let packet := { packet with code := code }
  Action.send sockfd packet

/-- Source function `send_private_message`; `src` and `dst` are the records named `from` and
`to` in the source, `message` the memory readable through the `message` pointer. -/
def send_private_message (src dst : client_t) (message : List Nat) : Action :=
  let packet := zero_pkt
  let packet := { packet with id := memcpy packet.id src.ident 14 }
  let packet := { packet with message := memcpy packet.message message 127 }
  let packet := { packet with code := PRIVATE_MESSAGE }
  Action.send dst.sockfd packet

/-- Packet that `send_connection_state` builds for the record `cl`. The test
`client->ident != NULL` of the source is on an array and always holds. -/
def connection_state_pkt (cl : client_t) (connected : Bool) : client_pkt_t :=
  let packet := zero_pkt
  let packet :=
    if connected then
      { packet with code := CLIENT_CONNECT
                    message := memcpy packet.message MSG_USER_CONNECTED MSG_USER_CONNECTED.length }
    else
      { packet with code := CLIENT_DISCONNECT
                    message :=
                      memcpy packet.message MSG_USER_DISCONNECTED MSG_USER_DISCONNECTED.length }
  { packet with id := memcpy packet.id cl.ident 14 }

/-- Source function `send_connection_state`; `client` is the slot the pointer refers to. -/
def send_connection_state (clients : client_array_t) (client : Nat) (connected : Bool) :
    Except Fault (List Action) :=
  match clients.clients[client]? with
  | none => .error .outOfBounds
  | some cl =>
    broadcast_message clients (if connected then client_ref.slot client else client_ref.null)
      (connection_state_pkt cl connected)

/-! ## Protocol handler (`handle_client_packet`) -/

/-- The statement sequence `send_packet (sender->sockfd, code, message);
client_array_remove_byref (clients, sender); close (sender->sockfd); return;` that the handler
runs on a protocol violation. The descriptor passed to `close` is read from the slot after
`client_array_remove_byref` has run. -/
def terminate_sender (ro : rodata_t) (clients : client_array_t) (sender : Nat) (code : Nat)
    (message : List Nat) : Except Fault (client_array_t × List Action) :=
  match clients.clients[sender]? with
  | none => .error .outOfBounds
  | some cl =>
    let sent := send_packet cl.sockfd code (some (literal_mem ro message))
    match client_array_remove_byref clients sender with
    | .error e => .error e
    | .ok r =>
      match r.1.clients[sender]? with
      | none => .error .outOfBounds
      | some cl1 => .ok (r.1, [sent, Action.close cl1.sockfd])

/-- Source function `handle_client_packet`; `sender` is the slot the pointer refers to. The
result is the registry after the call and the system calls issued, in order. -/
def handle_client_packet (ro : rodata_t) (clients : client_array_t) (sender : Nat)
    (packet : client_pkt_t) : Except Fault (client_array_t × List Action) :=
  match clients.clients[sender]? with
  | none => .error .outOfBounds
  | some cl =>
    if packet.code = CLIENT_IDENT then
      let ident := pkt_id_mem packet
      if cl.is_identified then .ok (clients, [])
      else if (cstr ident).length = 0 then
        terminate_sender ro clients sender INVALID_IDENT MSG_EMPTY_IDENTITY
      else
        match client_array_contains_ident clients none ident with
        | .error e => .error e
        | .ok (true, _) => terminate_sender ro clients sender INVALID_IDENT MSG_IDENTITY_EXISTS
        | .ok (false, _) =>
          let ack := send_packet cl.sockfd CONNECT_ACK (some (literal_mem ro MSG_WELCOME))
          let cl1 := { cl with ident := memcpy cl.ident ident 14 }
          let clients1 := { clients with clients := clients.clients.set sender cl1 }
          match send_connection_state clients1 sender true with
          | .error e => .error e
          | .ok sent =>
            let cl2 := { cl1 with is_identified := true }
            .ok ({ clients1 with clients := clients1.clients.set sender cl2 }, ack :: sent)
    else if packet.code = MESSAGE_TRANS then
      if !cl.is_identified then
        terminate_sender ro clients sender GENERAL_ERROR MSG_IDENTIFY_TO_CHAT
      else
        let packet1 := { packet with id := memcpy packet.id cl.ident 14 }
        match broadcast_message clients (client_ref.slot sender) packet1 with
        | .error e => .error e
        | .ok sent => .ok (clients, sent)
    else if packet.code = PRIVATE_MESSAGE then
      if !cl.is_identified then
        terminate_sender ro clients sender GENERAL_ERROR MSG_IDENTIFY_TO_PM
      else
        match client_array_contains_ident clients (some client_ref.uninit) (pkt_id_mem packet) with
        | .error e => .error e
        | .ok (false, _) =>
          .ok (clients,
            [send_packet cl.sockfd INVALID_PM_IDENT (some (literal_mem ro MSG_NO_SUCH_USER))])
        | .ok (true, receiver) =>
          match receiver with
          | some (client_ref.slot r) =>
            match clients.clients[r]? with
            | none => .error .outOfBounds
            | some rcv => .ok (clients, [send_private_message cl rcv packet.message])
          | _ => .error .uninitialised
    else .ok (clients, [])

/-! ## Event loop (`poll_indefinitely`) -/

/-- One thing that can happen in an iteration of the polling loop: `accept` returns a
descriptor, or `recv` on the socket of slot `free_idx` returns zero, fails with `EBADF`, or
delivers bytes that leave `packet` in the receive buffer. A `recv` that would block or fails
otherwise changes nothing and is not an event. -/
inductive Event where
  | accept (cl_sockfd : Int) (cl_address : sockaddr_in) (alloc : alloc_t)
  | recv_eof (free_idx : Nat)
  | recv_ebadf (free_idx : Nat)
  | recv_packet (free_idx : Nat) (packet : client_pkt_t)

/-- Registry at the start of the loop: `client_array_t clients = {0}` followed by
`client_array_create (&clients, 64)`. -/
def initial_registry : client_array_t :=
  (client_array_create { clients := [], size := 0, capacity := 0, free_indices := [] } 64).1

/-- The statements `send_connection_state (&clients, &clients.clients[free_idx], false);
client_array_remove (&clients, free_idx);` run on a zero-byte receive and on `EBADF`. -/
def poll_disconnect (clients : client_array_t) (free_idx : Nat) :
    Except Fault (client_array_t × List Action) :=
  match send_connection_state clients free_idx false with
  | .error e => .error e
  | .ok sent =>
    match client_array_remove clients free_idx with
    | .error e => .error e
    | .ok r => .ok (r.1, sent)

/-- Effect of one event on the registry. The result `none` means that the loop is left
(`break` after a failed `client_array_add`). Events for a slot are only raised inside the scan
`for (free_idx = 0; free_idx < clients.capacity; ++free_idx)` on slots whose flag is set. -/
def poll_event (ro : rodata_t) (clients : client_array_t) :
    Event → Except Fault (Option (client_array_t × List Action))
  | .accept cl_sockfd cl_address alloc =>
    if cl_sockfd > -1 then
      let current_client := { zero_client with sockfd := cl_sockfd, address := cl_address }
      match client_array_add clients current_client alloc with
      | .error e => .error e
      | .ok (_, false) => .ok none
      | .ok (clients1, true) => .ok (some (clients1, []))
    else .ok (some (clients, []))
  | .recv_eof free_idx =>
    if free_idx < clients.capacity ∧ clients.free_indices[free_idx]? = some true then
      (poll_disconnect clients free_idx).map some
    else .ok (some (clients, []))
  | .recv_ebadf free_idx =>
    if free_idx < clients.capacity ∧ clients.free_indices[free_idx]? = some true then
      (poll_disconnect clients free_idx).map some
    else .ok (some (clients, []))
  | .recv_packet free_idx packet =>
    if free_idx < clients.capacity ∧ clients.free_indices[free_idx]? = some true then
      (handle_client_packet ro clients free_idx packet).map some
    else .ok (some (clients, []))

/-- Registry after a sequence of events, with all system calls issued; `none` once the loop
has been left. -/
def poll_run (ro : rodata_t) (clients : client_array_t) :
    List Event → Except Fault (Option (client_array_t × List Action))
  | [] => .ok (some (clients, []))
  | ev :: rest =>
    match poll_event ro clients ev with
    | .error e => .error e
    | .ok none => .ok none
    | .ok (some (clients1, acts)) =>
      match poll_run ro clients1 rest with
      | .error e => .error e
      | .ok none => .ok none
      | .ok (some (clients2, acts2)) => .ok (some (clients2, acts ++ acts2))

/-! ## Specification vocabulary -/

/-- Slot `i` is flagged as holding a live record. -/
def is_occupied (clients : client_array_t) (i : Nat) : Bool :=
  clients.free_indices[i]? == some true

/-- Record stored in slot `i`. -/
def record_at (clients : client_array_t) (i : Nat) : client_t :=
  clients.clients.getD i zero_client

/-- Both arrays of the registry have `capacity` entries, and `capacity` and `size` are
values of type `size_t`. -/
def well_formed (clients : client_array_t) : Prop :=
  clients.clients.length = clients.capacity ∧ clients.free_indices.length = clients.capacity ∧
    clients.capacity < SIZE_MOD ∧ clients.size < SIZE_MOD

instance (clients : client_array_t) : Decidable (well_formed clients) :=
  inferInstanceAs (Decidable (_ ∧ _ ∧ _ ∧ _))

/-- Slot `i` holds an identified connection: it is occupied and `is_identified` is set. -/
def holds_identity (clients : client_array_t) (i : Nat) : Bool :=
  is_occupied clients i && (record_at clients i).is_identified

/-- Identity uniqueness: two distinct occupied slots with `is_identified` set hold
different identity strings. -/
def ident_unique (clients : client_array_t) : Prop :=
  ∀ i < clients.capacity, ∀ j < clients.capacity, i ≠ j →
    holds_identity clients i = true → holds_identity clients j = true →
    cstr (record_at clients i).ident ≠ cstr (record_at clients j).ident

instance (clients : client_array_t) : Decidable (ident_unique clients) :=
  @Nat.decidableBallLT _ _ (fun _ _ => @Nat.decidableBallLT _ _ (fun _ _ => inferInstance))

/-- Sends that deliver `packet` once to every occupied slot for which `keep` holds, in
index order. -/
def deliveries (clients : client_array_t) (keep : Nat → Bool) (packet : client_pkt_t) :
    List Action :=
  ((List.range clients.capacity).filter (fun j => is_occupied clients j && keep j)).map
    (fun j => Action.send (record_at clients j).sockfd packet)

/-- Registry structure as `client_array_t clients = {0}` initialises it. -/
def zero_registry : client_array_t :=
  { clients := [], size := 0, capacity := 0, free_indices := [] }

/-- One call of the registry interface; `remove_byref` takes a pointer to the start of
slot `idx`. -/
inductive registry_call where
  | add (client : client_t) (alloc : alloc_t)
  | remove (idx : Nat)
  | remove_byref (idx : Nat)
  | expand (size : Nat) (alloc : alloc_t)

/-- Registry after one call of the interface. -/
def apply_call (clients : client_array_t) : registry_call → Except Fault client_array_t
  | .add client alloc => (client_array_add clients client alloc).map Prod.fst
  | .remove idx => (client_array_remove clients idx).map Prod.fst
  | .remove_byref idx => (client_array_remove_byref clients idx).map Prod.fst
  | .expand size alloc => (client_array_expand clients size alloc).map Prod.fst

/-- Registry after a sequence of calls of the interface. -/
def run_calls (clients : client_array_t) : List registry_call → Except Fault client_array_t
  | [] => .ok clients
  | call :: rest =>
    match apply_call clients call with
    | .error e => .error e
    | .ok clients1 => run_calls clients1 rest

/-- Number of occupied slots. -/
def occupied_count (clients : client_array_t) : Nat :=
  ((List.range clients.capacity).filter (fun i => is_occupied clients i)).length

/-- The stored identity of a record is zero-terminated within its 15 bytes and is not the
reserved name. -/
def ident_ok (r : client_t) : Prop :=
  r.ident.drop 14 = [0] ∧ cstr r.ident ≠ SERVER_IDENT

/-- Every record of the registry satisfies `ident_ok`. -/
def idents_ok (clients : client_array_t) : Prop :=
  ∀ r ∈ clients.clients, ident_ok r

/-- The packet of a receive event has the field sizes of `client_pkt_t`. -/
def event_wf : Event → Prop
  | .recv_packet _ packet => packet.id.length = 15 ∧ packet.message.length = 128
  | _ => True

/-- The flag array has `capacity` entries, `size` is the number of flags that are set, and
`capacity` is a value of type `size_t`. -/
def size_inv (c : client_array_t) : Prop :=
  c.free_indices.length = c.capacity ∧ c.size = c.free_indices.count true ∧ c.capacity < SIZE_MOD

instance (ev : Event) : Decidable (event_wf ev) := by
  cases ev <;> unfold event_wf <;> infer_instance

/-- Every record with `is_identified` clear has an all-zero identity field. -/
def unidentified_zero (l : List client_t) : Prop :=
  ∀ r ∈ l, r.is_identified = false → r.ident = zeros 15

/-- Change of the array of records in one step: no change, one record replaced by a record
whose identity field is all zero, or the record of a slot with `is_identified` clear replaced
by a record with `is_identified` set. -/
def clients_step (l l1 : List client_t) : Prop :=
  l1 = l ∨ (∃ k r, l1 = l.set k r ∧ r.ident = zeros 15) ∨
    (∃ s cl r, l[s]? = some cl ∧ cl.is_identified = false ∧ r.is_identified = true ∧
      l1 = l.set s r)

/-- Record as the data model of the specification describes it: the identity is a string of at
most 14 bytes in its 15-byte field (the last byte is zero), and it is empty exactly while the
connection is not identified. -/
def record_valid (r : client_t) : Prop :=
  r.ident.drop 14 = [0] ∧ (r.is_identified = false ↔ cstr r.ident = [])

instance (r : client_t) : Decidable (record_valid r) :=
  inferInstanceAs (Decidable (_ ∧ _))

/-- Every occupied slot holds a record of the data model. -/
def records_valid (clients : client_array_t) : Prop :=
  ∀ i < clients.capacity, is_occupied clients i = true → record_valid (record_at clients i)

instance (clients : client_array_t) : Decidable (records_valid clients) :=
  @Nat.decidableBallLT _ _ (fun _ _ => inferInstance)

/-- Every record of the record array, in an occupied slot or not, is a record of the data
model. -/
def all_valid (clients : client_array_t) : Prop :=
  ∀ r ∈ clients.clients, record_valid r

/-! ## Concrete inputs used in the evaluations below -/

/-- One content of the read-only data, used where a run needs a concrete one: every byte
behind every literal is `?`. -/
def sample_rodata : rodata_t := fun _ _ => 63

/-- Address of a test peer. -/
def peer_address : sockaddr_in := { sin_family := 2, sin_port := 40000, sin_addr := 1 }

/-- Identity field holding a one-byte name followed by zero padding. -/
def short_name (b : Nat) : List Nat := b :: zeros 14

/-- Fourteen bytes `A`. -/
def name_A14 : List Nat := List.replicate 14 65

/-- Unidentified record as the accept path builds it. -/
def fresh_client (fd : Int) : client_t :=
  { sockfd := fd, address := peer_address, ident := zeros 15, is_identified := false }

/-- Identified record with a one-byte name. -/
def named_client (fd : Int) (b : Nat) : client_t :=
  { sockfd := fd, address := peer_address, ident := short_name b, is_identified := true }

/-- Registry with two slots, both occupied by unidentified records. -/
def full_pair : client_array_t :=
  { clients := [fresh_client 4, fresh_client 5], size := 2, capacity := 2,
    free_indices := [true, true] }

/-- Two accepted connections, the first of which has identified itself as `A`. -/
def setup_events : List Event :=
  [Event.accept 4 peer_address alloc_null, Event.accept 5 peer_address alloc_null,
   Event.recv_packet 0 { id := short_name 65, code := CLIENT_IDENT, message := zeros 128 }]

/-- The events of `setup_events`, after which the unidentified connection in slot 1 asks for
the reserved name. -/
def reserved_name_events : List Event :=
  setup_events ++
    [Event.recv_packet 1
      { id := SERVER_IDENT ++ zeros 9, code := CLIENT_IDENT, message := zeros 128 }]

/-- Registry with three occupied slots: `A` and `B` identified, the third unidentified. -/
def chat_trio : client_array_t :=
  { clients := [named_client 4 65, named_client 5 66, fresh_client 6], size := 3, capacity := 3,
    free_indices := [true, true, true] }

/-- Two identified connections `B` and `C`, as identified by the server. -/
def identified_pair_events : List Event :=
  [Event.accept 4 peer_address alloc_null, Event.accept 5 peer_address alloc_null,
   Event.recv_packet 0 { id := short_name 66, code := CLIENT_IDENT, message := zeros 128 },
   Event.recv_packet 1 { id := short_name 67, code := CLIENT_IDENT, message := zeros 128 }]

/-- Message field of the disconnect notification. -/
def msg_user_disconnected : List Nat := MSG_USER_DISCONNECTED ++ zeros 111

/-- `CLIENT_DISCONNECT` packet that carries the stored identity of `cl`. -/
def disconnect_pkt (cl : client_t) : client_pkt_t :=
  { id := memcpy (zeros 15) cl.ident 14, code := CLIENT_DISCONNECT, message := msg_user_disconnected }

/-- Registry `clients` with slot `i` cleared as `client_array_remove` clears it. -/
def freed (clients : client_array_t) (i : Nat) : client_array_t :=
  { clients := clients.clients.set i zero_client
    size := (clients.size + SIZE_MOD - 1) % SIZE_MOD
    capacity := clients.capacity
    free_indices := clients.free_indices.set i false }

/-- Read of the record behind a pointer that a registry function returned. -/
def deref (clients : client_array_t) (p : client_ref) : Except Fault client_t :=
  match p with
  | .slot i =>
    match clients.clients[i]? with
    | some cl => .ok cl
    | none => .error .outOfBounds
  | .null => .error .uninitialised
  | .uninit => .error .uninitialised

/-- Sixty-four accepted connections on the descriptors 4, 5, ..., 67. -/
def fill_events : List Event :=
  (List.range 64).map (fun i => Event.accept (Int.ofNat i + 4) peer_address alloc_null)

/-- Message field holding the text `hi`. -/
def msg_hi : List Nat := [104, 105] ++ zeros 126

/-! ## Theorems -/

set_option maxRecDepth 100000

/-! ### Lemmas on array reads and on the broadcast loop -/

theorem is_occupied_eq (c : client_array_t) (i : Nat) (h : i < c.free_indices.length) :
    is_occupied c i = c.free_indices[i] := by
  simp [is_occupied, List.getElem?_eq_getElem h]

theorem record_at_eq (c : client_array_t) (i : Nat) (h : i < c.clients.length) :
    record_at c i = c.clients[i] := by
  simp [record_at, List.getD_eq_getElem?_getD, List.getElem?_eq_getElem h]

theorem clients_getElem? (c : client_array_t) (i : Nat) (h : i < c.clients.length) :
    c.clients[i]? = some (record_at c i) := by
  rw [record_at_eq c i h, List.getElem?_eq_getElem h]

theorem broadcast_loop_eq (c : client_array_t) (src : client_ref) (pkt : client_pkt_t) :
    ∀ (n i : Nat), i + n ≤ c.free_indices.length → i + n ≤ c.clients.length →
      broadcast_loop c src pkt i n =
        .ok (((List.range' i n).filter
            (fun j => is_occupied c j && decide (src ≠ client_ref.slot j))).map
          (fun j => Action.send (record_at c j).sockfd pkt)) := by
  intro n
  induction n with
  | zero => intro i _ _; simp [broadcast_loop]
  | succ n ih =>
    intro i h1 h2
    have hi1 : i < c.free_indices.length := by omega
    have hi2 : i < c.clients.length := by omega
    have ih1 := ih (i + 1) (by omega) (by omega)
    rw [List.range'_succ, broadcast_loop, List.getElem?_eq_getElem hi1]
    have ho := is_occupied_eq c i hi1
    have hr := record_at_eq c i hi2
    cases hflag : c.free_indices[i] with
    | false =>
      rw [hflag] at ho
      simp [List.filter_cons, ho, ih1]
    | true =>
      rw [hflag] at ho
      by_cases hsrc : src = client_ref.slot i
      · simp [List.filter_cons, ho, hsrc, ih1]
        simpa [hsrc] using ih1
      · simp [List.filter_cons, ho, hsrc, ih1, List.getElem?_eq_getElem hi2, hr]

theorem broadcast_message_slot (c : client_array_t) (s : Nat) (pkt : client_pkt_t)
    (hwf : well_formed c) :
    broadcast_message c (client_ref.slot s) pkt = .ok (deliveries c (fun j => j != s) pkt) := by
  obtain ⟨h1, h2, _, _⟩ := hwf
  rw [broadcast_message, broadcast_loop_eq c _ pkt c.capacity 0 (by omega) (by omega)]
  simp only [deliveries, List.range_eq_range']
  congr 2
  apply List.filter_congr
  intro j _
  congr 1
  by_cases h : j = s
  · simp [h]
  · have h' : s ≠ j := fun e => h e.symm
    simp [h, h']

theorem broadcast_message_null (c : client_array_t) (pkt : client_pkt_t)
    (hwf : well_formed c) :
    broadcast_message c client_ref.null pkt = .ok (deliveries c (fun _ => true) pkt) := by
  obtain ⟨h1, h2, _, _⟩ := hwf
  rw [broadcast_message, broadcast_loop_eq c _ pkt c.capacity 0 (by omega) (by omega)]
  simp [deliveries, List.range_eq_range']


/-- The identity scan either finds no occupied slot whose stored identity compares equal, or
yields an occupied slot whose stored identity compares equal. -/
theorem contains_scan_result (c : client_array_t) (ident : List Nat) :
    ∀ (n i : Nat), i + n ≤ c.free_indices.length → i + n ≤ c.clients.length →
      (contains_scan c ident i n = .ok none ∧
        ∀ j, i ≤ j → j < i + n →
          ¬ (is_occupied c j = true ∧ streq (record_at c j).ident ident = true)) ∨
      (∃ k, contains_scan c ident i n = .ok (some k) ∧ i ≤ k ∧ k < i + n ∧
        is_occupied c k = true ∧ streq (record_at c k).ident ident = true) := by
  intro n
  induction n with
  | zero =>
    intro i _ _
    left
    exact ⟨rfl, fun j h1 h2 => by omega⟩
  | succ n ih =>
    intro i h1 h2
    have hi1 : i < c.free_indices.length := by omega
    have hi2 : i < c.clients.length := by omega
    have ho := is_occupied_eq c i hi1
    have hstep : ∀ (P : Nat → Prop), ¬ P i → (∀ j, i + 1 ≤ j → j < i + 1 + n → ¬ P j) →
        ∀ j, i ≤ j → j < i + (n + 1) → ¬ P j := by
      intro P hPi hrest j hj1 hj2
      by_cases hji : j = i
      · rw [hji]; exact hPi
      · exact hrest j (by omega) (by omega)
    rw [contains_scan, List.getElem?_eq_getElem hi1]
    cases hflag : c.free_indices[i] with
    | false =>
      rw [hflag] at ho
      rcases ih (i + 1) (by omega) (by omega) with ⟨hnone, hall⟩ | ⟨k, hk, hk1, hk2, hk3, hk4⟩
      · left
        refine ⟨hnone, hstep _ ?_ hall⟩
        simp [ho]
      · right
        exact ⟨k, hk, by omega, by omega, hk3, hk4⟩
    | true =>
      rw [hflag] at ho
      simp only [clients_getElem? c i hi2]
      by_cases hm : streq (record_at c i).ident ident = true
      · right
        exact ⟨i, by simp [hm], le_refl i, by omega, ho, hm⟩
      · rcases ih (i + 1) (by omega) (by omega) with ⟨hnone, hall⟩ | ⟨k, hk, hk1, hk2, hk3, hk4⟩
        · left
          refine ⟨by simpa [hm] using hnone, hstep _ ?_ hall⟩
          simp [hm]
        · right
          exact ⟨k, by simpa [hm] using hk, by omega, by omega, hk3, hk4⟩

/-- The packet built on a disconnect is the `CLIENT_DISCONNECT` packet with the stored identity. -/
theorem connection_state_pkt_disconnect (cl : client_t) :
    connection_state_pkt cl false = disconnect_pkt cl := rfl

theorem send_connection_state_disconnect (c : client_array_t) (i : Nat)
    (hwf : well_formed c) (hi : i < c.capacity) :
    send_connection_state c i false =
      .ok (deliveries c (fun _ => true) (disconnect_pkt (record_at c i))) := by
  have hlen : i < c.clients.length := by rw [hwf.1]; exact hi
  rw [send_connection_state, clients_getElem? c i hlen]
  simp only [Bool.false_eq_true, if_false]
  rw [broadcast_message_null c _ hwf, connection_state_pkt_disconnect]

/-- On an occupied slot that is not the last one `client_array_remove` clears the slot. -/
theorem client_array_remove_inner (c : client_array_t) (i : Nat)
    (hwf : well_formed c) (hi : i + 1 < c.capacity) (ho : is_occupied c i = true) :
    client_array_remove c i = .ok (freed c i, true) := by
  obtain ⟨hl1, hl2, hcap, _⟩ := hwf
  have hmod : (i + 1) % SIZE_MOD = i + 1 := Nat.mod_eq_of_lt (by omega)
  have hflag : c.free_indices[i]? = some true := by simpa [is_occupied] using ho
  have hlen : i < c.clients.length := by omega
  rw [client_array_remove, hmod]
  simp [hflag, hlen, freed, Nat.not_le.mpr hi]

theorem client_array_remove_defined (c : client_array_t) (i : Nat)
    (hwf : well_formed c) (hi : i < c.capacity) :
    ∃ r, client_array_remove c i = .ok r := by
  obtain ⟨hl1, hl2, hcap, _⟩ := hwf
  have hi1 : i < c.free_indices.length := by omega
  have hi2 : i < c.clients.length := by omega
  rw [client_array_remove]
  split
  · exact ⟨_, rfl⟩
  · rw [List.getElem?_eq_getElem hi1]
    cases c.free_indices[i] with
    | false => exact ⟨_, rfl⟩
    | true => simp [hi2]

theorem own_send_mem_deliveries (c : client_array_t) (i : Nat) (pkt : client_pkt_t)
    (hi : i < c.capacity) (ho : is_occupied c i = true) :
    Action.send (record_at c i).sockfd pkt ∈ deliveries c (fun _ => true) pkt := by
  simp only [deliveries, List.mem_map, List.mem_filter, List.mem_range]
  exact ⟨i, ⟨hi, by simp [ho]⟩, rfl⟩

/-- The registry the polling loop starts from has 64 slots in both arrays. -/
theorem initial_registry_well_formed : well_formed initial_registry := by decide

/-! ### Lemmas on freed slots, termination of a sender and identity strings -/

theorem flag_of_occupied (c : client_array_t) (i : Nat) (h : is_occupied c i = true) :
    c.free_indices[i]? = some true := by
  simpa [is_occupied] using h

theorem is_occupied_freed_self (c : client_array_t) (i : Nat) : is_occupied (freed c i) i = false := by
  by_cases h : i < c.free_indices.length
  · simp [is_occupied, freed, List.getElem?_set, h]
  · simp [is_occupied, freed, List.getElem?_set, h]

theorem record_at_freed_self (c : client_array_t) (i : Nat) (h : i < c.clients.length) :
    record_at (freed c i) i = zero_client := by
  simp [record_at, freed, List.getD_eq_getElem?_getD, List.getElem?_set, h]

theorem is_occupied_freed_other (c : client_array_t) (i j : Nat) (h : j ≠ i) :
    is_occupied (freed c i) j = is_occupied c j := by
  have h1 : i ≠ j := fun e => h e.symm
  simp [is_occupied, freed, List.getElem?_set, h1]

theorem record_at_freed_other (c : client_array_t) (i j : Nat) (h : j ≠ i) :
    record_at (freed c i) j = record_at c j := by
  have h1 : i ≠ j := fun e => h e.symm
  simp [record_at, freed, List.getD_eq_getElem?_getD, List.getElem?_set, h1]

theorem client_array_remove_byref_occupied (c : client_array_t) (i : Nat)
    (hwf : well_formed c) (hi : i < c.capacity) (ho : is_occupied c i = true) :
    client_array_remove_byref c i = .ok (freed c i, true) := by
  have hlen : i < c.clients.length := by rw [hwf.1]; exact hi
  simp [client_array_remove_byref, flag_of_occupied c i ho, hlen, freed]

/-- On an occupied sender the violation sequence sends the packet, frees the slot and closes
descriptor 0, the `sockfd` of the zeroed record. -/
theorem terminate_sender_occupied {ro : rodata_t} (c : client_array_t) (s code : Nat)
    (message : List Nat)
    (hwf : well_formed c) (hs : s < c.capacity) (ho : is_occupied c s = true) :
    terminate_sender ro c s code message =
      .ok (freed c s,
        [send_packet (record_at c s).sockfd code (some (literal_mem ro message)), Action.close 0]) := by
  have hlen : s < c.clients.length := by rw [hwf.1]; exact hs
  have hlen1 : s < (freed c s).clients.length := by simpa [freed] using hlen
  have hz : record_at (freed c s) s = zero_client := record_at_freed_self c s hlen
  rw [terminate_sender, clients_getElem? c s hlen]
  simp only [client_array_remove_byref_occupied c s hwf hs ho]
  rw [clients_getElem? (freed c s) s hlen1, hz]
  rfl

theorem size_freed (c : client_array_t) (i : Nat) (hwf : well_formed c) (h : 0 < c.size) :
    (freed c i).size + 1 = c.size := by
  have h2 : c.size < SIZE_MOD := hwf.2.2.2
  have h3 : c.size + SIZE_MOD - 1 = (c.size - 1) + SIZE_MOD := by omega
  simp only [freed]
  rw [h3, Nat.add_mod_right, Nat.mod_eq_of_lt (by omega)]
  omega

/-- A string of at most `n` bytes survives truncation to `n` bytes followed by a terminator. -/
theorem cstr_take_terminated (n : Nat) (x : List Nat) (h : (cstr x).length ≤ n) :
    cstr (x.take n ++ [0]) = cstr x := by
  induction x generalizing n with
  | nil => simp [cstr]
  | cons a t ih =>
    by_cases ha : a = 0
    · subst ha
      cases n with
      | zero => simp [cstr]
      | succ m => simp [cstr]
    · have hc : cstr (a :: t) = a :: cstr t := by simp [cstr, ha]
      rw [hc] at h
      cases n with
      | zero => simp at h
      | succ m =>
        have h' : (cstr t).length ≤ m := by simpa using h
        have := ih m h'
        simp only [List.take_succ_cons, List.cons_append]
        rw [hc]
        simp only [cstr, List.takeWhile_cons, bne_iff_ne, ne_eq, ha, not_false_eq_true,
          decide_True, ite_true] at this ⊢
        rw [this]

theorem deliveries_congr (c c1 : client_array_t) (keep : Nat → Bool) (pkt : client_pkt_t)
    (hcap : c1.capacity = c.capacity) (hflags : c1.free_indices = c.free_indices)
    (hrec : ∀ j, keep j = true → record_at c1 j = record_at c j) :
    deliveries c1 keep pkt = deliveries c keep pkt := by
  have hocc : ∀ j, is_occupied c1 j = is_occupied c j := by
    intro j; simp [is_occupied, hflags]
  simp only [deliveries, hcap, hocc]
  apply List.map_congr_left
  intro j hj
  have hk : keep j = true := by
    have := (List.mem_filter.mp hj).2
    simp only [Bool.and_eq_true] at this
    exact this.2
  rw [hrec j hk]

theorem contains_ident_absent (c : client_array_t) (ident : List Nat)
    (hwf : well_formed c)
    (hfree : ∀ j < c.capacity, is_occupied c j = true → cstr (record_at c j).ident ≠ cstr ident)
    (hsrv : cstr ident ≠ SERVER_IDENT) (client : Option client_ref) :
    client_array_contains_ident c client ident = .ok (false, client) := by
  rw [client_array_contains_ident]
  rcases contains_scan_result c ident c.capacity 0
      (by rw [hwf.2.1]; omega) (by rw [hwf.1]; omega) with
    ⟨hnone, _⟩ | ⟨k, _, _, hk2, hk3, hk4⟩
  · rw [hnone]
    have : streq ident SERVER_IDENT = false := by
      have hs : cstr SERVER_IDENT = SERVER_IDENT := by decide
      simp [streq, hs, hsrv]
    simp [this]
  · exfalso
    apply hfree k (by omega) hk3
    simpa [streq] using hk4

/-! ### Lemmas on the occupancy count -/

theorem count_set_true (l : List Bool) (i : Nat) (h : l[i]? = some false) :
    (l.set i true).count true = l.count true + 1 := by
  induction l generalizing i with
  | nil => simp at h
  | cons b t ih =>
    cases i with
    | zero =>
      have hb : b = false := by simpa using h
      simp [hb]
    | succ j =>
      have := ih j (by simpa using h)
      cases b <;> simp [this]

theorem count_set_false (l : List Bool) (i : Nat) (h : l[i]? = some true) :
    (l.set i false).count true + 1 = l.count true := by
  induction l generalizing i with
  | nil => simp at h
  | cons b t ih =>
    cases i with
    | zero =>
      have hb : b = true := by simpa using h
      simp [hb]
    | succ j =>
      have := ih j (by simpa using h)
      cases b <;> simp <;> omega

theorem filter_range_count_aux (l pre : List Bool) :
    ((List.range' pre.length l.length).filter (fun i => (pre ++ l)[i]? == some true)).length =
      l.count true := by
  induction l generalizing pre with
  | nil => simp
  | cons b t ih =>
    have h := ih (pre ++ [b])
    simp only [List.length_append, List.length_singleton, List.append_assoc,
      List.singleton_append] at h
    simp only [List.length_cons, List.range'_succ, List.filter_cons]
    have hb : (pre ++ b :: t)[pre.length]? = some b := by
      rw [List.getElem?_append_right (Nat.le_refl _)]
      simp
    rw [hb]
    cases b <;> simp [h]

theorem occupied_count_eq (c : client_array_t) (h : c.free_indices.length = c.capacity) :
    occupied_count c = c.free_indices.count true := by
  have := filter_range_count_aux c.free_indices []
  simp only [List.length_nil, List.nil_append] at this
  rw [occupied_count, ← h, List.range_eq_range']
  exact this

theorem add_scan_free (c : client_array_t) :
    ∀ (n i k : Nat), add_scan c i n = .ok (some k) → c.free_indices[k]? = some false := by
  intro n
  induction n with
  | zero => intro i k h; simp [add_scan] at h
  | succ n ih =>
    intro i k h
    rw [add_scan] at h
    split at h
    · simp at h
    · rename_i hf
      have : i = k := by simpa using h
      rw [← this]; exact hf
    · exact ih (i + 1) k h

theorem size_inv_add_store (c c1 : client_array_t) (k : Nat) (cl : client_t) (b : Bool)
    (hinv : size_inv c) (hk : c.free_indices[k]? = some false)
    (h : add_store c k cl = .ok (c1, b)) : size_inv c1 := by
  obtain ⟨h1, h2, h3⟩ := hinv
  rw [add_store] at h
  split at h
  · have hc : c1 = _ := (congrArg Prod.fst (Except.ok.inj h)).symm
    have hle : c.free_indices.count true + 1 ≤ c.free_indices.length := by
      rw [← count_set_true c.free_indices k hk]
      have := List.count_le_length true (c.free_indices.set k true)
      simpa using this
    rw [hc]
    refine ⟨by simpa using h1, ?_, h3⟩
    simp only [count_set_true c.free_indices k hk, h2]
    exact Nat.mod_eq_of_lt (by omega)
  · simp at h

theorem size_inv_freed (c : client_array_t) (i : Nat) (hinv : size_inv c)
    (hf : c.free_indices[i]? = some true) : size_inv (freed c i) := by
  obtain ⟨h1, h2, h3⟩ := hinv
  have hcnt := count_set_false c.free_indices i hf
  have hle := List.count_le_length true c.free_indices
  refine ⟨by simpa [freed] using h1, ?_, h3⟩
  simp only [freed]
  have h4 : c.size + SIZE_MOD - 1 = (c.size - 1) + SIZE_MOD := by omega
  rw [h4, Nat.add_mod_right, Nat.mod_eq_of_lt (by omega)]
  omega

theorem size_inv_remove (c : client_array_t) (i : Nat) (r : client_array_t × Bool)
    (hinv : size_inv c) (h : client_array_remove c i = .ok r) : size_inv r.1 := by
  rw [client_array_remove] at h
  split at h
  · rw [← Except.ok.inj h]; exact hinv
  · split at h
    · simp at h
    · rw [← Except.ok.inj h]; exact hinv
    · rename_i hf
      split at h
      · rw [← Except.ok.inj h]; exact size_inv_freed c i hinv hf
      · simp at h

theorem size_inv_remove_byref (c : client_array_t) (i : Nat) (r : client_array_t × Bool)
    (hinv : size_inv c) (h : client_array_remove_byref c i = .ok r) : size_inv r.1 := by
  rw [client_array_remove_byref] at h
  split at h
  · simp at h
  · rw [← Except.ok.inj h]; exact hinv
  · rename_i hf
    split at h
    · rw [← Except.ok.inj h]; exact size_inv_freed c i hinv hf
    · simp at h

theorem size_inv_expand (c : client_array_t) (n : Nat) (alloc : alloc_t)
    (r : client_array_t × Bool) (hinv : size_inv c)
    (h : client_array_expand c n alloc = .ok r) :
    size_inv r.1 ∧ (r.2 = true → r.1.free_indices = c.free_indices ∧ r.1.capacity = c.capacity) := by
  obtain ⟨h1, h2, h3⟩ := hinv
  rw [client_array_expand] at h
  split at h
  · rw [← Except.ok.inj h]; exact ⟨⟨h1, h2, h3⟩, fun _ => ⟨rfl, rfl⟩⟩
  · split at h
    · simp at h
    · rename_i hwrap
      have hlt : c.capacity + n < SIZE_MOD := by omega
      split at h
      · rw [← Except.ok.inj h]; exact ⟨⟨h1, h2, h3⟩, fun _ => ⟨rfl, rfl⟩⟩
      · simp at h
      · rw [← Except.ok.inj h]
        refine ⟨⟨?_, ?_, ?_⟩, fun hb => by simp at hb⟩
        · simp [h1, Nat.mod_eq_of_lt hlt]
        · simp [h2, List.count_replicate]
        · exact Nat.mod_lt _ (by decide)

theorem size_inv_add (c : client_array_t) (cl : client_t) (alloc : alloc_t)
    (r : client_array_t × Bool) (hinv : size_inv c)
    (h : client_array_add c cl alloc = .ok r) : size_inv r.1 := by
  rw [client_array_add] at h
  split at h
  · simp at h
  · rename_i k hk
    exact size_inv_add_store c r.1 k cl r.2 hinv (add_scan_free c _ _ k hk) h
  · split at h
    · simp at h
    · rename_i r1 hr1
      obtain ⟨hi1, hsame⟩ := size_inv_expand c _ alloc r1 hinv hr1
      split at h
      · rw [← Except.ok.inj h]; exact hi1
      · exfalso
        rename_i hb
        have hb1 : r1.2 = true := by simpa using hb
        obtain ⟨hfl, hcp⟩ := hsame hb1
        rw [add_store] at h
        split at h
        · rename_i hlt
          rw [hfl, hinv.1] at hlt
          omega
        · simp at h

theorem size_inv_apply_call (c c1 : client_array_t) (call : registry_call)
    (hinv : size_inv c) (h : apply_call c call = .ok c1) : size_inv c1 := by
  cases call with
  | add cl alloc =>
    rw [apply_call] at h
    cases hr : client_array_add c cl alloc with
    | error e => rw [hr] at h; simp [Except.map] at h
    | ok r =>
      rw [hr] at h
      have : r.1 = c1 := by simpa [Except.map] using h
      rw [← this]; exact size_inv_add c cl alloc r hinv hr
  | remove idx =>
    rw [apply_call] at h
    cases hr : client_array_remove c idx with
    | error e => rw [hr] at h; simp [Except.map] at h
    | ok r =>
      rw [hr] at h
      have : r.1 = c1 := by simpa [Except.map] using h
      rw [← this]; exact size_inv_remove c idx r hinv hr
  | remove_byref idx =>
    rw [apply_call] at h
    cases hr : client_array_remove_byref c idx with
    | error e => rw [hr] at h; simp [Except.map] at h
    | ok r =>
      rw [hr] at h
      have : r.1 = c1 := by simpa [Except.map] using h
      rw [← this]; exact size_inv_remove_byref c idx r hinv hr
  | expand n alloc =>
    rw [apply_call] at h
    cases hr : client_array_expand c n alloc with
    | error e => rw [hr] at h; simp [Except.map] at h
    | ok r =>
      rw [hr] at h
      have : r.1 = c1 := by simpa [Except.map] using h
      rw [← this]; exact (size_inv_expand c n alloc r hinv hr).1

theorem size_inv_run_calls (calls : List registry_call) :
    ∀ (c c1 : client_array_t), size_inv c → run_calls c calls = .ok c1 → size_inv c1 := by
  induction calls with
  | nil =>
    intro c c1 hinv h
    rw [run_calls] at h
    rw [← Except.ok.inj h]; exact hinv
  | cons call rest ih =>
    intro c c1 hinv h
    rw [run_calls] at h
    split at h
    · simp at h
    · rename_i c2 hc2
      exact ih c2 c1 (size_inv_apply_call c c2 call hinv hc2) h

/-! ### Lemmas on stored identities along the event loop -/

theorem cstr_take_terminated_eq (n : Nat) (x : List Nat) :
    cstr (x.take n ++ [0]) = (cstr x).take n := by
  induction x generalizing n with
  | nil => simp [cstr]
  | cons a t ih =>
    cases n with
    | zero => simp [cstr]
    | succ m =>
      by_cases ha : a = 0
      · subst ha
        simp [cstr]
      · have := ih m
        simp only [cstr] at this
        simp [cstr, ha, this]

theorem ident_ok_zero_client : ident_ok zero_client := by
  constructor <;> decide

theorem ident_ok_accepted (fd : Int) (a : sockaddr_in) :
    ident_ok { zero_client with sockfd := fd, address := a } :=
  ident_ok_zero_client

theorem idents_ok_set (l : List client_t) (i : Nat) (r : client_t)
    (h : ∀ x ∈ l, ident_ok x) (hr : ident_ok r) : ∀ x ∈ l.set i r, ident_ok x := by
  intro x hx
  rcases List.mem_or_eq_of_mem_set hx with h1 | h1
  · exact h x h1
  · rw [h1]; exact hr

theorem idents_ok_freed (c : client_array_t) (i : Nat) (h : idents_ok c) :
    idents_ok (freed c i) :=
  idents_ok_set c.clients i zero_client h ident_ok_zero_client

theorem idents_ok_remove (c : client_array_t) (i : Nat) (r : client_array_t × Bool)
    (hinv : idents_ok c) (h : client_array_remove c i = .ok r) : idents_ok r.1 := by
  rw [client_array_remove] at h
  split at h
  · rw [← Except.ok.inj h]; exact hinv
  · split at h
    · simp at h
    · rw [← Except.ok.inj h]; exact hinv
    · split at h
      · rw [← Except.ok.inj h]; exact idents_ok_freed c i hinv
      · simp at h

theorem idents_ok_remove_byref (c : client_array_t) (i : Nat) (r : client_array_t × Bool)
    (hinv : idents_ok c) (h : client_array_remove_byref c i = .ok r) : idents_ok r.1 := by
  rw [client_array_remove_byref] at h
  split at h
  · simp at h
  · rw [← Except.ok.inj h]; exact hinv
  · split at h
    · rw [← Except.ok.inj h]; exact idents_ok_freed c i hinv
    · simp at h

theorem idents_ok_add_store (c : client_array_t) (k : Nat) (cl : client_t)
    (r : client_array_t × Bool) (hinv : idents_ok c) (hcl : ident_ok cl)
    (h : add_store c k cl = .ok r) : idents_ok r.1 := by
  rw [add_store] at h
  split at h
  · rw [← Except.ok.inj h]; exact idents_ok_set c.clients k cl hinv hcl
  · simp at h

theorem idents_ok_expand_failed (c : client_array_t) (n : Nat) (alloc : alloc_t)
    (r : client_array_t × Bool) (hinv : idents_ok c)
    (h : client_array_expand c n alloc = .ok r) (hb : r.2 = true) : idents_ok r.1 := by
  rw [client_array_expand] at h
  split at h
  · rw [← Except.ok.inj h]; exact hinv
  · split at h
    · simp at h
    · split at h
      · rw [← Except.ok.inj h]
        intro x hx
        simp only at hx
        split at hx
        · simp at hx
        · exact hinv x hx
      · simp at h
      · rw [← Except.ok.inj h] at hb
        simp at hb

theorem idents_ok_add (c : client_array_t) (cl : client_t) (alloc : alloc_t)
    (c1 : client_array_t) (hinv : idents_ok c) (hcl : ident_ok cl)
    (h : client_array_add c cl alloc = .ok (c1, true)) : idents_ok c1 := by
  rw [client_array_add] at h
  split at h
  · simp at h
  · exact idents_ok_add_store c _ cl (c1, true) hinv hcl h
  · split at h
    · simp at h
    · rename_i r1 hr1
      split at h
      · have := Except.ok.inj h
        simp at this
      · rename_i hb
        have hb1 : r1.2 = true := by simpa using hb
        exact idents_ok_add_store r1.1 _ cl (c1, true)
          (idents_ok_expand_failed c _ alloc r1 hinv hr1 hb1) hcl h

theorem idents_ok_terminate_sender {ro : rodata_t} (c : client_array_t) (s code : Nat)
    (msg : List Nat)
    (r : client_array_t × List Action) (hinv : idents_ok c)
    (h : terminate_sender ro c s code msg = .ok r) : idents_ok r.1 := by
  rw [terminate_sender] at h
  split at h
  · simp at h
  · split at h
    · simp at h
    · rename_i r1 hr1
      split at h
      · simp at h
      · rw [← Except.ok.inj h]
        exact idents_ok_remove_byref c s r1 hinv hr1

theorem contains_ident_false_not_server (c : client_array_t) (client : Option client_ref)
    (ident : List Nat) (x : Option client_ref)
    (h : client_array_contains_ident c client ident = .ok (false, x)) :
    cstr ident ≠ SERVER_IDENT := by
  rw [client_array_contains_ident] at h
  split at h
  · simp at h
  · simp at h
  · split at h
    · simp at h
    · rename_i hs
      intro heq
      apply hs
      rw [streq, heq]
      decide

theorem ident_ok_identified (cl : client_t) (pkt : client_pkt_t) (hcl : ident_ok cl)
    (hid : pkt.id.length = 15) (hsrv : cstr (pkt_id_mem pkt) ≠ SERVER_IDENT) (b : Bool) :
    ident_ok { sockfd := cl.sockfd, address := cl.address,
               ident := memcpy cl.ident (pkt_id_mem pkt) 14, is_identified := b } := by
  have htl : ((pkt_id_mem pkt).take 14).length = 14 := by
    simp only [List.length_take, pkt_id_mem, List.length_append, List.length_cons, hid]
    omega
  have hm : memcpy cl.ident (pkt_id_mem pkt) 14 = (pkt_id_mem pkt).take 14 ++ [0] := by
    rw [memcpy, hcl.1]
  constructor
  · show (memcpy cl.ident (pkt_id_mem pkt) 14).drop 14 = [0]
    rw [hm, List.drop_append_of_le_length (by omega), List.drop_of_length_le (by omega)]
    rfl
  · show cstr (memcpy cl.ident (pkt_id_mem pkt) 14) ≠ SERVER_IDENT
    rw [hm, cstr_take_terminated_eq]
    intro heq
    apply hsrv
    have hlen : ((cstr (pkt_id_mem pkt)).take 14).length = 6 := by rw [heq]; rfl
    have hle : (cstr (pkt_id_mem pkt)).length ≤ 14 := by
      rw [List.length_take] at hlen
      omega
    rw [List.take_of_length_le hle] at heq
    exact heq

theorem idents_ok_handle {ro : rodata_t} (c : client_array_t) (s : Nat) (pkt : client_pkt_t)
    (r : client_array_t × List Action) (hinv : idents_ok c) (hid : pkt.id.length = 15)
    (h : handle_client_packet ro c s pkt = .ok r) : idents_ok r.1 := by
  rw [handle_client_packet] at h
  split at h
  · simp at h
  · rename_i cl hcl
    have hclok : ident_ok cl := hinv cl (List.getElem?_mem hcl)
    split at h
    · split at h
      · rw [← Except.ok.inj h]; exact hinv
      · dsimp only at h
        split at h
        · exact idents_ok_terminate_sender c s _ _ r hinv h
        · split at h
          · simp at h
          · exact idents_ok_terminate_sender c s _ _ r hinv h
          · rename_i x hx
            have hsrv := contains_ident_false_not_server c none _ x hx
            split at h
            · simp at h
            · rw [← Except.ok.inj h]
              intro y hy
              simp only at hy
              apply idents_ok_set _ s _ _ (ident_ok_identified cl pkt hclok hid hsrv true) y hy
              exact idents_ok_set c.clients s _ hinv (ident_ok_identified cl pkt hclok hid hsrv _)
    · split at h
      · split at h
        · exact idents_ok_terminate_sender c s _ _ r hinv h
        · dsimp only at h
          split at h
          · simp at h
          · rw [← Except.ok.inj h]; exact hinv
      · split at h
        · split at h
          · exact idents_ok_terminate_sender c s _ _ r hinv h
          · split at h
            · simp at h
            · rw [← Except.ok.inj h]; exact hinv
            · repeat' split at h
              all_goals first | (rw [← Except.ok.inj h]; exact hinv) | simp at h
        · rw [← Except.ok.inj h]; exact hinv

theorem idents_ok_poll_disconnect (c : client_array_t) (i : Nat)
    (r : client_array_t × List Action) (hinv : idents_ok c)
    (h : poll_disconnect c i = .ok r) : idents_ok r.1 := by
  rw [poll_disconnect] at h
  split at h
  · simp at h
  · split at h
    · simp at h
    · rename_i r1 hr1
      rw [← Except.ok.inj h]
      exact idents_ok_remove c i r1 hinv hr1

theorem map_some_ok {α : Type} (x : Except Fault α) (a : α)
    (h : x.map some = .ok (some a)) : x = .ok a := by
  cases x with
  | error e => simp [Except.map] at h
  | ok b =>
    have : b = a := by simpa [Except.map] using h
    rw [this]

theorem idents_ok_poll_event {ro : rodata_t} (c c1 : client_array_t) (ev : Event)
    (acts : List Action)
    (hinv : idents_ok c) (hwf : event_wf ev)
    (h : poll_event ro c ev = .ok (some (c1, acts))) : idents_ok c1 := by
  cases ev with
  | accept fd a alloc =>
    rw [poll_event] at h
    split at h
    · dsimp only at h
      split at h
      · simp at h
      · simp at h
      · rename_i c2 hc2
        have : c2 = c1 := by
          have := Except.ok.inj h
          simp at this
          exact this.1
        rw [← this]
        exact idents_ok_add c _ alloc c2 hinv (ident_ok_accepted fd a) hc2
    · have : c = c1 := by
        have := Except.ok.inj h
        simp at this
        exact this.1
      rw [← this]; exact hinv
  | recv_eof i =>
    rw [poll_event] at h
    split at h
    · exact idents_ok_poll_disconnect c i (c1, acts) hinv (map_some_ok _ _ h)
    · have : c = c1 := by
        have := Except.ok.inj h
        simp at this
        exact this.1
      rw [← this]; exact hinv
  | recv_ebadf i =>
    rw [poll_event] at h
    split at h
    · exact idents_ok_poll_disconnect c i (c1, acts) hinv (map_some_ok _ _ h)
    · have : c = c1 := by
        have := Except.ok.inj h
        simp at this
        exact this.1
      rw [← this]; exact hinv
  | recv_packet i pkt =>
    rw [poll_event] at h
    split at h
    · exact idents_ok_handle c i pkt (c1, acts) hinv hwf.1 (map_some_ok _ _ h)
    · have : c = c1 := by
        have := Except.ok.inj h
        simp at this
        exact this.1
      rw [← this]; exact hinv

theorem idents_ok_poll_run {ro : rodata_t} (evs : List Event) :
    ∀ (c c1 : client_array_t) (acts : List Action), idents_ok c →
      (∀ ev ∈ evs, event_wf ev) → poll_run ro c evs = .ok (some (c1, acts)) → idents_ok c1 := by
  induction evs with
  | nil =>
    intro c c1 acts hinv _ h
    rw [poll_run] at h
    have : c = c1 := by
      have := Except.ok.inj h
      simp at this
      exact this.1
    rw [← this]; exact hinv
  | cons ev rest ih =>
    intro c c1 acts hinv hwf h
    rw [poll_run] at h
    split at h
    · simp at h
    · simp at h
    · rename_i c2 acts2 hc2
      have h2 := idents_ok_poll_event c c2 ev acts2 hinv (hwf ev (List.mem_cons_self _ _)) hc2
      split at h
      · simp at h
      · simp at h
      · rename_i c3 acts3 hc3
        have : c3 = c1 := by
          have := Except.ok.inj h
          simp at this
          exact this.1
        rw [← this]
        exact ih c2 c3 acts3 h2 (fun e he => hwf e (List.mem_cons_of_mem _ he)) hc3

theorem idents_ok_initial : idents_ok initial_registry := by
  intro r hr
  have : r = zero_client := List.eq_of_mem_replicate hr
  rw [this]; exact ident_ok_zero_client

/-! ### Lemmas on how one event changes the records -/

theorem clients_step_freed (c : client_array_t) (i : Nat) :
    clients_step c.clients (freed c i).clients :=
  Or.inr (Or.inl ⟨i, zero_client, rfl, rfl⟩)

theorem clients_step_remove (c : client_array_t) (i : Nat) (r : client_array_t × Bool)
    (h : client_array_remove c i = .ok r) : clients_step c.clients r.1.clients := by
  rw [client_array_remove] at h
  split at h
  · rw [← Except.ok.inj h]; exact Or.inl rfl
  · split at h
    · simp at h
    · rw [← Except.ok.inj h]; exact Or.inl rfl
    · split at h
      · rw [← Except.ok.inj h]; exact clients_step_freed c i
      · simp at h

theorem clients_step_remove_byref (c : client_array_t) (i : Nat) (r : client_array_t × Bool)
    (h : client_array_remove_byref c i = .ok r) : clients_step c.clients r.1.clients := by
  rw [client_array_remove_byref] at h
  split at h
  · simp at h
  · rw [← Except.ok.inj h]; exact Or.inl rfl
  · split at h
    · rw [← Except.ok.inj h]; exact clients_step_freed c i
    · simp at h

theorem expand_failed_clients (c : client_array_t) (n : Nat) (alloc : alloc_t)
    (r : client_array_t × Bool) (h : client_array_expand c n alloc = .ok r) (hb : r.2 = true) :
    r.1.clients = c.clients ∨ r.1.clients = [] := by
  rw [client_array_expand] at h
  split at h
  · rw [← Except.ok.inj h]; exact Or.inl rfl
  · split at h
    · simp at h
    · split at h
      · rw [← Except.ok.inj h]
        simp only
        split
        · exact Or.inr rfl
        · exact Or.inl rfl
      · simp at h
      · rw [← Except.ok.inj h] at hb
        simp at hb

theorem clients_step_add (c : client_array_t) (cl : client_t) (alloc : alloc_t)
    (c1 : client_array_t) (hcl : cl.ident = zeros 15)
    (h : client_array_add c cl alloc = .ok (c1, true)) : clients_step c.clients c1.clients := by
  rw [client_array_add] at h
  split at h
  · simp at h
  · rename_i k _
    rw [add_store] at h
    split at h
    · have hc := congrArg Prod.fst (Except.ok.inj h)
      dsimp only at hc
      rw [← hc]
      exact Or.inr (Or.inl ⟨k, cl, rfl, hcl⟩)
    · simp at h
  · split at h
    · simp at h
    · rename_i r1 hr1
      split at h
      · have := Except.ok.inj h
        simp at this
      · rename_i hb
        have hb1 : r1.2 = true := by simpa using hb
        rw [add_store] at h
        split at h
        · rename_i hlt
          have hc := congrArg Prod.fst (Except.ok.inj h)
          dsimp only at hc
          rw [← hc]
          rcases expand_failed_clients c _ alloc r1 hr1 hb1 with he | he
          · exact Or.inr (Or.inl ⟨c.capacity + 1, cl, by simp only [he], hcl⟩)
          · rw [he] at hlt
            simp at hlt
        · simp at h

theorem clients_step_terminate_sender {ro : rodata_t} (c : client_array_t) (s code : Nat)
    (msg : List Nat)
    (r : client_array_t × List Action)
    (h : terminate_sender ro c s code msg = .ok r) : clients_step c.clients r.1.clients := by
  rw [terminate_sender] at h
  split at h
  · simp at h
  · split at h
    · simp at h
    · rename_i r1 hr1
      split at h
      · simp at h
      · rw [← Except.ok.inj h]
        exact clients_step_remove_byref c s r1 hr1

theorem clients_step_poll_disconnect (c : client_array_t) (i : Nat)
    (r : client_array_t × List Action)
    (h : poll_disconnect c i = .ok r) : clients_step c.clients r.1.clients := by
  rw [poll_disconnect] at h
  split at h
  · simp at h
  · split at h
    · simp at h
    · rename_i r1 hr1
      rw [← Except.ok.inj h]
      exact clients_step_remove c i r1 hr1

theorem clients_step_handle {ro : rodata_t} (c : client_array_t) (s : Nat) (pkt : client_pkt_t)
    (r : client_array_t × List Action)
    (h : handle_client_packet ro c s pkt = .ok r) : clients_step c.clients r.1.clients := by
  rw [handle_client_packet] at h
  split at h
  · simp at h
  · rename_i cl hcl
    split at h
    · split at h
      · rw [← Except.ok.inj h]; exact Or.inl rfl
      · rename_i hun
        have hun1 : cl.is_identified = false := by simpa using hun
        dsimp only at h
        split at h
        · exact clients_step_terminate_sender c s _ _ r h
        · split at h
          · simp at h
          · exact clients_step_terminate_sender c s _ _ r h
          · split at h
            · simp at h
            · rw [← Except.ok.inj h]
              simp only [List.set_set]
              exact Or.inr (Or.inr ⟨s, cl, _, hcl, hun1, rfl, rfl⟩)
    · split at h
      · split at h
        · exact clients_step_terminate_sender c s _ _ r h
        · dsimp only at h
          split at h
          · simp at h
          · rw [← Except.ok.inj h]; exact Or.inl rfl
      · split at h
        · split at h
          · exact clients_step_terminate_sender c s _ _ r h
          · split at h
            · simp at h
            · rw [← Except.ok.inj h]; exact Or.inl rfl
            · repeat' split at h
              all_goals first | (rw [← Except.ok.inj h]; exact Or.inl rfl) | simp at h
        · rw [← Except.ok.inj h]; exact Or.inl rfl

/-- One event of the polling loop changes the array of records by a `clients_step`. -/
theorem clients_step_poll_event {ro : rodata_t} (c c1 : client_array_t) (ev : Event)
    (acts : List Action)
    (h : poll_event ro c ev = .ok (some (c1, acts))) : clients_step c.clients c1.clients := by
  have hsame : ∀ (x : Except Fault (Option (client_array_t × List Action))),
      x = .ok (some (c, [])) → x = .ok (some (c1, acts)) →
        clients_step c.clients c1.clients := by
    intro x h1 h2
    rw [h1] at h2
    have := Except.ok.inj h2
    simp at this
    rw [← this.1]; exact Or.inl rfl
  cases ev with
  | accept fd a alloc =>
    rw [poll_event] at h
    split at h
    · dsimp only at h
      split at h
      · simp at h
      · simp at h
      · rename_i c2 hc2
        have : c2 = c1 := by
          have := Except.ok.inj h
          simp at this
          exact this.1
        rw [← this]
        exact clients_step_add c _ alloc c2 rfl hc2
    · exact hsame _ rfl h
  | recv_eof i =>
    rw [poll_event] at h
    split at h
    · exact clients_step_poll_disconnect c i (c1, acts) (map_some_ok _ _ h)
    · exact hsame _ rfl h
  | recv_ebadf i =>
    rw [poll_event] at h
    split at h
    · exact clients_step_poll_disconnect c i (c1, acts) (map_some_ok _ _ h)
    · exact hsame _ rfl h
  | recv_packet i pkt =>
    rw [poll_event] at h
    split at h
    · exact clients_step_handle c i pkt (c1, acts) (map_some_ok _ _ h)
    · exact hsame _ rfl h

theorem unidentified_zero_step (l l1 : List client_t) (hinv : unidentified_zero l)
    (h : clients_step l l1) : unidentified_zero l1 := by
  rcases h with h | ⟨k, r, h, hr⟩ | ⟨s, cl, r, _, _, hr, h⟩
  · rw [h]; exact hinv
  · rw [h]
    intro x hx hxu
    rcases List.mem_or_eq_of_mem_set hx with h1 | h1
    · exact hinv x h1 hxu
    · rw [h1]; exact hr
  · rw [h]
    intro x hx hxu
    rcases List.mem_or_eq_of_mem_set hx with h1 | h1
    · exact hinv x h1 hxu
    · rw [h1, hr] at hxu
      simp at hxu

/-- Read per slot, a `clients_step` keeps the identity field, zeroes it, or comes with the
flag going from clear to set. -/
theorem ident_written_with_flag (l l1 : List client_t) (h : clients_step l l1) (i : Nat) :
    (l1.getD i zero_client).ident = (l.getD i zero_client).ident ∨
      (l1.getD i zero_client).ident = zeros 15 ∨
      ((l.getD i zero_client).is_identified = false ∧
        (l1.getD i zero_client).is_identified = true) := by
  rcases h with h | ⟨k, r, h, hr⟩ | ⟨s, cl, r, hcl, hclu, hr, h⟩
  · rw [h]; exact Or.inl rfl
  · rw [h]
    by_cases hk : k = i ∧ k < l.length
    · right; left
      simp [List.getD_eq_getElem?_getD, List.getElem?_set, hk.1 ▸ hk.2, hk.1, hr]
    · left
      by_cases hki : k = i
      · have hnl : ¬ i < l.length := fun hlt => hk ⟨hki, hki ▸ hlt⟩
        simp [List.getD_eq_getElem?_getD, List.getElem?_set, hki, hnl,
          List.getElem?_eq_none (Nat.le_of_not_lt hnl)]
      · simp [List.getD_eq_getElem?_getD, List.getElem?_set, hki]
  · rw [h]
    by_cases hsi : s = i
    · right; right
      have hlt : s < l.length := (List.getElem?_eq_some.mp hcl).1
      subst hsi
      simp [List.getD_eq_getElem?_getD, List.getElem?_set, hlt, hcl, hclu, hr]
    · left
      simp [List.getD_eq_getElem?_getD, List.getElem?_set, hsi]

theorem unidentified_zero_poll_run {ro : rodata_t} (evs : List Event) :
    ∀ (c c1 : client_array_t) (acts : List Action), unidentified_zero c.clients →
      poll_run ro c evs = .ok (some (c1, acts)) → unidentified_zero c1.clients := by
  induction evs with
  | nil =>
    intro c c1 acts hinv h
    rw [poll_run] at h
    have : c = c1 := by
      have := Except.ok.inj h
      simp at this
      exact this.1
    rw [← this]; exact hinv
  | cons ev rest ih =>
    intro c c1 acts hinv h
    rw [poll_run] at h
    split at h
    · simp at h
    · simp at h
    · rename_i c2 acts2 hc2
      have h2 := unidentified_zero_step _ _ hinv (clients_step_poll_event c c2 ev acts2 hc2)
      split at h
      · simp at h
      · simp at h
      · rename_i c3 acts3 hc3
        have : c3 = c1 := by
          have := Except.ok.inj h
          simp at this
          exact this.1
        rw [← this]
        exact ih c2 c3 acts3 h2 hc3

theorem unidentified_zero_initial : unidentified_zero initial_registry.clients := by
  intro r hr _
  have : r = zero_client := List.eq_of_mem_replicate hr
  rw [this]; rfl

/-! ### Lemmas on the records of the data model along the event loop -/

theorem record_valid_zero_client : record_valid zero_client := by
  decide

theorem record_valid_accepted (fd : Int) (a : sockaddr_in) :
    record_valid { zero_client with sockfd := fd, address := a } :=
  record_valid_zero_client

theorem all_valid_set (l : List client_t) (i : Nat) (r : client_t)
    (h : ∀ x ∈ l, record_valid x) (hr : record_valid r) : ∀ x ∈ l.set i r, record_valid x := by
  intro x hx
  rcases List.mem_or_eq_of_mem_set hx with h1 | h1
  · exact h x h1
  · rw [h1]; exact hr

theorem all_valid_freed (c : client_array_t) (i : Nat) (h : all_valid c) :
    all_valid (freed c i) :=
  all_valid_set c.clients i zero_client h record_valid_zero_client

theorem all_valid_remove (c : client_array_t) (i : Nat) (r : client_array_t × Bool)
    (hinv : all_valid c) (h : client_array_remove c i = .ok r) : all_valid r.1 := by
  rw [client_array_remove] at h
  split at h
  · rw [← Except.ok.inj h]; exact hinv
  · split at h
    · simp at h
    · rw [← Except.ok.inj h]; exact hinv
    · split at h
      · rw [← Except.ok.inj h]; exact all_valid_freed c i hinv
      · simp at h

theorem all_valid_remove_byref (c : client_array_t) (i : Nat) (r : client_array_t × Bool)
    (hinv : all_valid c) (h : client_array_remove_byref c i = .ok r) : all_valid r.1 := by
  rw [client_array_remove_byref] at h
  split at h
  · simp at h
  · rw [← Except.ok.inj h]; exact hinv
  · split at h
    · rw [← Except.ok.inj h]; exact all_valid_freed c i hinv
    · simp at h

theorem all_valid_add_store (c : client_array_t) (k : Nat) (cl : client_t)
    (r : client_array_t × Bool) (hinv : all_valid c) (hcl : record_valid cl)
    (h : add_store c k cl = .ok r) : all_valid r.1 := by
  rw [add_store] at h
  split at h
  · rw [← Except.ok.inj h]; exact all_valid_set c.clients k cl hinv hcl
  · simp at h

theorem all_valid_expand_failed (c : client_array_t) (n : Nat) (alloc : alloc_t)
    (r : client_array_t × Bool) (hinv : all_valid c)
    (h : client_array_expand c n alloc = .ok r) (hb : r.2 = true) : all_valid r.1 := by
  rw [client_array_expand] at h
  split at h
  · rw [← Except.ok.inj h]; exact hinv
  · split at h
    · simp at h
    · split at h
      · rw [← Except.ok.inj h]
        intro x hx
        simp only at hx
        split at hx
        · simp at hx
        · exact hinv x hx
      · simp at h
      · rw [← Except.ok.inj h] at hb
        simp at hb

theorem all_valid_add (c : client_array_t) (cl : client_t) (alloc : alloc_t)
    (c1 : client_array_t) (hinv : all_valid c) (hcl : record_valid cl)
    (h : client_array_add c cl alloc = .ok (c1, true)) : all_valid c1 := by
  rw [client_array_add] at h
  split at h
  · simp at h
  · exact all_valid_add_store c _ cl (c1, true) hinv hcl h
  · split at h
    · simp at h
    · rename_i r1 hr1
      split at h
      · have := Except.ok.inj h
        simp at this
      · rename_i hb
        have hb1 : r1.2 = true := by simpa using hb
        exact all_valid_add_store r1.1 _ cl (c1, true)
          (all_valid_expand_failed c _ alloc r1 hinv hr1 hb1) hcl h

theorem all_valid_terminate_sender {ro : rodata_t} (c : client_array_t) (s code : Nat)
    (msg : List Nat)
    (r : client_array_t × List Action) (hinv : all_valid c)
    (h : terminate_sender ro c s code msg = .ok r) : all_valid r.1 := by
  rw [terminate_sender] at h
  split at h
  · simp at h
  · split at h
    · simp at h
    · rename_i r1 hr1
      split at h
      · simp at h
      · rw [← Except.ok.inj h]
        exact all_valid_remove_byref c s r1 hinv hr1

theorem record_valid_identified (cl : client_t) (pkt : client_pkt_t) (hcl : record_valid cl)
    (hid : pkt.id.length = 15) (hne : ¬ (cstr (pkt_id_mem pkt)).length = 0) :
    record_valid { sockfd := cl.sockfd, address := cl.address,
                   ident := memcpy cl.ident (pkt_id_mem pkt) 14, is_identified := true } := by
  have htl : ((pkt_id_mem pkt).take 14).length = 14 := by
    simp only [List.length_take, pkt_id_mem, List.length_append, List.length_cons, hid]
    omega
  have hm : memcpy cl.ident (pkt_id_mem pkt) 14 = (pkt_id_mem pkt).take 14 ++ [0] := by
    rw [memcpy, hcl.1]
  constructor
  · show (memcpy cl.ident (pkt_id_mem pkt) 14).drop 14 = [0]
    rw [hm, List.drop_append_of_le_length (by omega), List.drop_of_length_le (by omega)]
    rfl
  · show (true = false ↔ cstr (memcpy cl.ident (pkt_id_mem pkt) 14) = [])
    rw [hm, cstr_take_terminated_eq]
    constructor
    · intro h
      cases h
    · intro h
      exfalso
      apply hne
      have h1 := congrArg List.length h
      rw [List.length_take] at h1
      simp only [List.length_nil] at h1
      omega

theorem all_valid_handle {ro : rodata_t} (c : client_array_t) (s : Nat) (pkt : client_pkt_t)
    (r : client_array_t × List Action) (hinv : all_valid c) (hid : pkt.id.length = 15)
    (h : handle_client_packet ro c s pkt = .ok r) : all_valid r.1 := by
  rw [handle_client_packet] at h
  split at h
  · simp at h
  · rename_i cl hcl
    have hclok : record_valid cl := hinv cl (List.getElem?_mem hcl)
    split at h
    · split at h
      · rw [← Except.ok.inj h]; exact hinv
      · dsimp only at h
        split at h
        · exact all_valid_terminate_sender c s _ _ r hinv h
        · rename_i hlen0
          split at h
          · simp at h
          · exact all_valid_terminate_sender c s _ _ r hinv h
          · split at h
            · simp at h
            · rw [← Except.ok.inj h]
              intro y hy
              simp only [List.set_set] at hy
              exact all_valid_set c.clients s _ hinv
                (record_valid_identified cl pkt hclok hid hlen0) y hy
    · split at h
      · split at h
        · exact all_valid_terminate_sender c s _ _ r hinv h
        · dsimp only at h
          split at h
          · simp at h
          · rw [← Except.ok.inj h]; exact hinv
      · split at h
        · split at h
          · exact all_valid_terminate_sender c s _ _ r hinv h
          · split at h
            · simp at h
            · rw [← Except.ok.inj h]; exact hinv
            · repeat' split at h
              all_goals first | (rw [← Except.ok.inj h]; exact hinv) | simp at h
        · rw [← Except.ok.inj h]; exact hinv

theorem all_valid_poll_disconnect (c : client_array_t) (i : Nat)
    (r : client_array_t × List Action) (hinv : all_valid c)
    (h : poll_disconnect c i = .ok r) : all_valid r.1 := by
  rw [poll_disconnect] at h
  split at h
  · simp at h
  · split at h
    · simp at h
    · rename_i r1 hr1
      rw [← Except.ok.inj h]
      exact all_valid_remove c i r1 hinv hr1

theorem all_valid_poll_event {ro : rodata_t} (c c1 : client_array_t) (ev : Event)
    (acts : List Action)
    (hinv : all_valid c) (hwf : event_wf ev)
    (h : poll_event ro c ev = .ok (some (c1, acts))) : all_valid c1 := by
  cases ev with
  | accept fd a alloc =>
    rw [poll_event] at h
    split at h
    · dsimp only at h
      split at h
      · simp at h
      · simp at h
      · rename_i c2 hc2
        have : c2 = c1 := by
          have := Except.ok.inj h
          simp at this
          exact this.1
        rw [← this]
        exact all_valid_add c _ alloc c2 hinv (record_valid_accepted fd a) hc2
    · have : c = c1 := by
        have := Except.ok.inj h
        simp at this
        exact this.1
      rw [← this]; exact hinv
  | recv_eof i =>
    rw [poll_event] at h
    split at h
    · exact all_valid_poll_disconnect c i (c1, acts) hinv (map_some_ok _ _ h)
    · have : c = c1 := by
        have := Except.ok.inj h
        simp at this
        exact this.1
      rw [← this]; exact hinv
  | recv_ebadf i =>
    rw [poll_event] at h
    split at h
    · exact all_valid_poll_disconnect c i (c1, acts) hinv (map_some_ok _ _ h)
    · have : c = c1 := by
        have := Except.ok.inj h
        simp at this
        exact this.1
      rw [← this]; exact hinv
  | recv_packet i pkt =>
    rw [poll_event] at h
    split at h
    · exact all_valid_handle c i pkt (c1, acts) hinv hwf.1 (map_some_ok _ _ h)
    · have : c = c1 := by
        have := Except.ok.inj h
        simp at this
        exact this.1
      rw [← this]; exact hinv

theorem all_valid_poll_run {ro : rodata_t} (evs : List Event) :
    ∀ (c c1 : client_array_t) (acts : List Action), all_valid c →
      (∀ ev ∈ evs, event_wf ev) → poll_run ro c evs = .ok (some (c1, acts)) → all_valid c1 := by
  induction evs with
  | nil =>
    intro c c1 acts hinv _ h
    rw [poll_run] at h
    have : c = c1 := by
      have := Except.ok.inj h
      simp at this
      exact this.1
    rw [← this]; exact hinv
  | cons ev rest ih =>
    intro c c1 acts hinv hwf h
    rw [poll_run] at h
    split at h
    · simp at h
    · simp at h
    · rename_i c2 acts2 hc2
      have h2 := all_valid_poll_event c c2 ev acts2 hinv (hwf ev (List.mem_cons_self _ _)) hc2
      split at h
      · simp at h
      · simp at h
      · rename_i c3 acts3 hc3
        have : c3 = c1 := by
          have := Except.ok.inj h
          simp at this
          exact this.1
        rw [← this]
        exact ih c2 c3 acts3 h2 (fun e he => hwf e (List.mem_cons_of_mem _ he)) hc3

theorem all_valid_initial : all_valid initial_registry := by
  intro r hr
  have : r = zero_client := List.eq_of_mem_replicate hr
  rw [this]; exact record_valid_zero_client

/-- A registry all of whose records are records of the data model satisfies `records_valid`. -/
theorem records_valid_of_all_valid (c : client_array_t) (h : all_valid c) : records_valid c := by
  intro i _ _
  rw [record_at, List.getD_eq_getElem?_getD]
  cases hi : c.clients[i]? with
  | none => exact record_valid_zero_client
  | some r => exact h r (List.getElem?_mem hi)

/-- Every registry that the polling loop reaches from its initial registry holds records of
the data model in its occupied slots. -/
theorem records_valid_reached {ro : rodata_t} (evs : List Event) (c : client_array_t)
    (acts : List Action) (hwf : ∀ ev ∈ evs, event_wf ev)
    (h : poll_run ro initial_registry evs = .ok (some (c, acts))) : records_valid c :=
  records_valid_of_all_valid c
    (all_valid_poll_run evs initial_registry c acts all_valid_initial hwf h)

/-! ### The properties of the specification, by claim -/

/-- C1 (identity uniqueness), evaluated on the server: after two accepts, a `CLIENT_IDENT`
from slot 0 with the 14-byte name `AAAAAAAAAAAAAA` and a `CLIENT_IDENT` from slot 1 whose
identity field holds that name followed by a fifteenth non-zero byte, slots 0 and 1 are both
occupied and identified and store the same identity. -/
theorem identity_stored_twice (ro : rodata_t) :
    ∃ c acts,
      poll_run ro initial_registry
        [Event.accept 4 peer_address alloc_null, Event.accept 5 peer_address alloc_null,
         Event.recv_packet 0 { id := name_A14 ++ [0], code := CLIENT_IDENT, message := zeros 128 },
         Event.recv_packet 1 { id := name_A14 ++ [66], code := CLIENT_IDENT, message := zeros 128 }]
        = .ok (some (c, acts)) ∧
      is_occupied c 0 = true ∧ is_occupied c 1 = true ∧
      record_at c 0 =
        { sockfd := 4, address := peer_address, ident := name_A14 ++ [0], is_identified := true } ∧
      record_at c 1 =
        { sockfd := 5, address := peer_address, ident := name_A14 ++ [0], is_identified := true } ∧
      ¬ ident_unique c := by
  refine ⟨_, _, rfl, rfl, rfl, rfl, rfl, ?_⟩
  intro h
  exact h 0 (by decide) 1 (by decide) (by decide) rfl rfl rfl

/-- C2 (add on a full registry), evaluated: with both slots occupied and both `realloc` calls
succeeding in place, `client_array_add` grows the capacity from 2 to 18 but returns `false`, stores the
record nowhere and leaves `size` at 2; with a failing `realloc` it goes on to write slot
`capacity + 1`, outside the arrays. -/
theorem add_on_full_registry :
    client_array_add full_pair (fresh_client 6) alloc_same =
      .ok ({ clients := [fresh_client 4, fresh_client 5] ++ List.replicate 16 zero_client
             size := 2
             capacity := 18
             free_indices := [true, true] ++ List.replicate 16 false }, false) ∧
    client_array_add full_pair (fresh_client 6) alloc_null = .error Fault.outOfBounds := by
  constructor <;> rfl

/-- C3 (registry round-trip), evaluated: in a registry created with capacity 2 the second
`client_array_add` succeeds and stores its record in slot 1, the last slot, and
`client_array_get` on index 1 returns `NULL`; index 0 is returned as expected. -/
theorem get_misses_last_slot :
    ∃ c0 c1,
      client_array_add
        (client_array_create { clients := [], size := 0, capacity := 0, free_indices := [] } 2).1
        (fresh_client 4) alloc_null = .ok (c0, true) ∧
      client_array_add c0 (fresh_client 5) alloc_null = .ok (c1, true) ∧
      is_occupied c1 1 = true ∧ record_at c1 1 = fresh_client 5 ∧
      client_array_get c1 1 = .ok client_ref.null ∧
      client_array_get c1 0 = .ok (client_ref.slot 0) := by
  exact ⟨_, _, rfl, rfl, rfl, rfl, rfl, rfl⟩

/-- C4 (remove), evaluated: on a registry of capacity 2 whose slot 1 is occupied,
`client_array_remove` on index 1 returns `false` and changes nothing, the disconnect path of
the polling loop leaves slot 1 occupied, and index `2 ^ 64 - 1` is read outside the flag
array; index 0 is removed as expected. -/
theorem remove_misses_last_slot :
    is_occupied full_pair 1 = true ∧
    client_array_remove full_pair 1 = .ok (full_pair, false) ∧
    (poll_disconnect full_pair 1).map Prod.fst = .ok full_pair ∧
    client_array_remove full_pair (2 ^ 64 - 1) = .error Fault.outOfBounds ∧
    client_array_remove full_pair 0 =
      .ok ({ clients := [zero_client, fresh_client 5], size := 1, capacity := 2,
             free_indices := [false, true] }, true) := by
  exact ⟨rfl, rfl, rfl, rfl, rfl⟩

/-- C5 (broadcast excludes sender): for a registry whose arrays have `capacity` entries and an
identified sender in slot `s`, handling a `MESSAGE_TRANS` packet leaves the registry unchanged
and issues, in index order, exactly one send to every occupied slot other than `s` and nothing
else; every packet sent has opcode `MESSAGE_TRANS` and the message bytes that were received. -/
theorem broadcast_excludes_sender {ro : rodata_t} (c : client_array_t) (s : Nat)
    (pkt : client_pkt_t)
    (hwf : well_formed c) (hs : s < c.capacity)
    (hid : (record_at c s).is_identified = true) (hcode : pkt.code = MESSAGE_TRANS) :
    handle_client_packet ro c s pkt =
      .ok (c, deliveries c (fun j => j != s)
        { id := memcpy pkt.id (record_at c s).ident 14
          code := MESSAGE_TRANS
          message := pkt.message }) := by
  have hlen : s < c.clients.length := by rw [hwf.1]; exact hs
  have hne : ¬ (MESSAGE_TRANS = CLIENT_IDENT) := by decide
  rw [handle_client_packet, clients_getElem? c s hlen]
  simp only [hcode, hne, if_false, if_true, hid, Bool.not_true]
  rw [broadcast_message_slot c s _ hwf, ← hcode]
  simp

/-- Concrete instance for C5: `A` in slot 0 of `chat_trio` sends `hi` under a forged identity
field; slots 1 and 2 each get one packet that carries the name `A`, slot 0 gets none. -/
theorem broadcast_excludes_sender_witness :
    well_formed chat_trio ∧ 0 < chat_trio.capacity ∧
    (record_at chat_trio 0).is_identified = true ∧
    handle_client_packet sample_rodata chat_trio 0 { id := short_name 90, code := MESSAGE_TRANS, message := msg_hi }
      = .ok (chat_trio,
          [Action.send 5 { id := short_name 65, code := MESSAGE_TRANS, message := msg_hi },
           Action.send 6 { id := short_name 65, code := MESSAGE_TRANS, message := msg_hi }]) :=
  ⟨by decide, by decide, rfl,
    broadcast_excludes_sender chat_trio 0
      { id := short_name 90, code := MESSAGE_TRANS, message := msg_hi } (by decide) (by decide) rfl rfl⟩

/-- C6 (anti-spoofing), evaluated on the server: `A` (slot 0) is identified, slot 1 holds a
second connection. Two `MESSAGE_TRANS` packets from `A` with the same message, one with an
all-zero identity field and one whose fifteenth identity byte is 66, are relayed with different
identity fields: the fifteenth byte of the relayed packet is the byte the client supplied. -/
theorem relayed_identity_keeps_last_byte (ro : rodata_t) :
    ∃ c acts,
      poll_run ro initial_registry setup_events = .ok (some (c, acts)) ∧
      handle_client_packet ro c 0 { id := zeros 15, code := MESSAGE_TRANS, message := msg_hi } =
        .ok (c, [Action.send 5 { id := short_name 65, code := MESSAGE_TRANS, message := msg_hi }]) ∧
      handle_client_packet ro c 0 { id := zeros 14 ++ [66], code := MESSAGE_TRANS, message := msg_hi } =
        .ok (c, [Action.send 5
          { id := 65 :: zeros 13 ++ [66], code := MESSAGE_TRANS, message := msg_hi }]) ∧
      short_name 65 ≠ 65 :: zeros 13 ++ [66] := by
  exact ⟨_, _, rfl, rfl, rfl, by decide⟩

/-- C7 (private message to a missing target), evaluated on the server: `A` (slot 0) is
identified, slot 1 holds an unidentified connection. A `PRIVATE_MESSAGE` from `A` with an empty
identity field is delivered on the socket of slot 1 and no `INVALID_PM_IDENT` is sent; one that
names `SERVER` makes the handler use a receiver pointer that was never assigned; one that names
an identity stored in no occupied slot is answered with `INVALID_PM_IDENT` to `A` alone, whose
message field holds the literal, its terminator and the 108 bytes of read-only data behind
it. -/
theorem private_message_missing_target (ro : rodata_t) :
    ∃ c acts,
      poll_run ro initial_registry setup_events = .ok (some (c, acts)) ∧
      is_occupied c 1 = true ∧ record_at c 1 = fresh_client 5 ∧
      handle_client_packet ro c 0
          { id := zeros 15, code := PRIVATE_MESSAGE, message := msg_hi } =
        .ok (c, [Action.send 5
          { id := short_name 65, code := PRIVATE_MESSAGE, message := msg_hi }]) ∧
      handle_client_packet ro c 0
          { id := SERVER_IDENT ++ zeros 9, code := PRIVATE_MESSAGE, message := msg_hi } =
        .error Fault.uninitialised ∧
      handle_client_packet ro c 0
          { id := short_name 90, code := PRIVATE_MESSAGE, message := msg_hi } =
        .ok (c, [Action.send 4
          { id := SERVER_IDENT ++ zeros 9, code := INVALID_PM_IDENT,
            message :=
              MSG_NO_SUCH_USER ++ 0 ::
                (List.range 108).map (ro MSG_NO_SUCH_USER) ++ [0] }]) := by
  exact ⟨_, _, rfl, rfl, rfl, rfl, rfl, rfl⟩

/-- C8 (private message routing): for a registry whose arrays have `capacity` entries, whose
occupied slots hold records of the data model and which satisfies identity uniqueness, a
`PRIVATE_MESSAGE` from the identified sender in slot `a` whose identity field names the
identity of the identified connection in slot `b` leaves the registry unchanged and issues
exactly one send, on the socket of slot `b`: a packet with opcode `PRIVATE_MESSAGE` whose
identity field is the stored identity of the sender. Its message field holds the first 127
bytes of the received message field followed by a zero byte, which is the received message
field itself when that field ends in a zero byte, as every message of at most 127 significant
bytes does. -/
theorem private_message_routing {ro : rodata_t} (c : client_array_t) (a b : Nat)
    (pkt : client_pkt_t)
    (hwf : well_formed c) (hval : records_valid c) (huniq : ident_unique c)
    (ha : a < c.capacity) (haid : holds_identity c a = true)
    (hcode : pkt.code = PRIVATE_MESSAGE)
    (hb : b < c.capacity) (hbid : holds_identity c b = true)
    (hname : cstr (pkt_id_mem pkt) = cstr (record_at c b).ident) :
    ∃ relayed,
      handle_client_packet ro c a pkt =
        .ok (c, [Action.send (record_at c b).sockfd relayed]) ∧
      relayed.code = PRIVATE_MESSAGE ∧ relayed.id = (record_at c a).ident ∧
      relayed.message = pkt.message.take 127 ++ [0] ∧
      (pkt.message.drop 127 = [0] → relayed.message = pkt.message) := by
  obtain ⟨hl1, hl2, _, _⟩ := hwf
  have hao : is_occupied c a = true ∧ (record_at c a).is_identified = true := by
    simpa [holds_identity] using haid
  have hbo : is_occupied c b = true ∧ (record_at c b).is_identified = true := by
    simpa [holds_identity] using hbid
  have hbne : cstr (record_at c b).ident ≠ [] := by
    intro h
    have := (hval b hb hbo.1).2.mpr h
    rw [hbo.2] at this
    cases this
  have hscan : contains_scan c (pkt_id_mem pkt) 0 c.capacity = .ok (some b) := by
    rcases contains_scan_result c (pkt_id_mem pkt) c.capacity 0 (by omega) (by omega) with
      ⟨_, hall⟩ | ⟨k, hk, _, hk2, hk3, hk4⟩
    · exfalso
      apply hall b (Nat.zero_le b) (by omega)
      refine ⟨hbo.1, ?_⟩
      simp [streq, hname]
    · have hk5 : cstr (record_at c k).ident = cstr (pkt_id_mem pkt) := by
        simpa [streq] using hk4
      have hkb : k = b := by
        by_contra hne
        cases hkid : (record_at c k).is_identified with
        | false =>
          apply hbne
          rw [← hname, ← hk5]
          exact (hval k (by omega) hk3).2.mp hkid
        | true =>
          refine huniq k (by omega) b hb hne ?_ hbid (by rw [hk5, hname])
          simp [holds_identity, hk3, hkid]
      rw [hk, hkb]
  have hne1 : ¬ (PRIVATE_MESSAGE = CLIENT_IDENT) := by decide
  have hne2 : ¬ (PRIVATE_MESSAGE = MESSAGE_TRANS) := by decide
  have hida : memcpy (zeros 15) (record_at c a).ident 14 = (record_at c a).ident := by
    have h14 := (hval a ha hao.1).1
    rw [memcpy, show (zeros 15).drop 14 = [0] from rfl, ← h14, List.take_append_drop]
  have hmsg : memcpy (zeros 128) pkt.message 127 = pkt.message.take 127 ++ [0] := rfl
  refine ⟨{ id := (record_at c a).ident, code := PRIVATE_MESSAGE,
            message := pkt.message.take 127 ++ [0] }, ?_, rfl, rfl, rfl, ?_⟩
  · rw [handle_client_packet, clients_getElem? c a (by omega)]
    simp only [hcode, hne1, hne2, if_false, if_true, hao.2, Bool.not_true,
      client_array_contains_ident, hscan, Option.map_some']
    rw [clients_getElem? c b (by omega)]
    simp only [send_private_message, zero_pkt, hida, hmsg]
    rfl
  · intro h
    show pkt.message.take 127 ++ [0] = pkt.message
    rw [← h, List.take_append_drop]

/-- Concrete instance for C8: in `chat_trio`, `A` (slot 0) sends `hi` to `B` (slot 1); the only
send goes to the socket of `B` and carries the identity `A` and the message `hi`. -/
theorem private_message_routing_witness :
    well_formed chat_trio ∧ records_valid chat_trio ∧ ident_unique chat_trio ∧
    holds_identity chat_trio 0 = true ∧ holds_identity chat_trio 1 = true ∧
    (record_at chat_trio 1).sockfd = 5 ∧ (record_at chat_trio 0).ident = short_name 65 ∧
    ∃ relayed,
      handle_client_packet sample_rodata chat_trio 0
          { id := short_name 66, code := PRIVATE_MESSAGE, message := msg_hi } =
        .ok (chat_trio, [Action.send (record_at chat_trio 1).sockfd relayed]) ∧
      relayed.code = PRIVATE_MESSAGE ∧ relayed.id = (record_at chat_trio 0).ident ∧
      relayed.message = msg_hi.take 127 ++ [0] ∧
      (msg_hi.drop 127 = [0] → relayed.message = msg_hi) :=
  ⟨by decide, by decide, by decide, rfl, rfl, rfl, rfl,
    private_message_routing chat_trio 0 1
      { id := short_name 66, code := PRIVATE_MESSAGE, message := msg_hi }
      (by decide) (by decide) (by decide) (by decide) rfl rfl (by decide) rfl rfl⟩

/-- C9 (disconnect broadcast), amended: for a registry whose arrays have `capacity` entries and
an identified occupied slot `b`, a zero-byte receive on slot `b` issues, in index order, exactly
one send of the `CLIENT_DISCONNECT` packet that carries the stored identity of `b` to every
occupied slot, the slot `b` itself included, and nothing else. -/
theorem disconnect_broadcast {ro : rodata_t} (c : client_array_t) (b : Nat)
    (hwf : well_formed c) (hb : b < c.capacity) (hbid : holds_identity c b = true) :
    ∃ c1, poll_event ro c (Event.recv_eof b) =
        .ok (some (c1, deliveries c (fun _ => true)
          { id := memcpy (zeros 15) (record_at c b).ident 14
            code := CLIENT_DISCONNECT
            message := msg_user_disconnected })) ∧
      Action.send (record_at c b).sockfd
          { id := memcpy (zeros 15) (record_at c b).ident 14
            code := CLIENT_DISCONNECT
            message := msg_user_disconnected } ∈
        deliveries c (fun _ => true)
          { id := memcpy (zeros 15) (record_at c b).ident 14
            code := CLIENT_DISCONNECT
            message := msg_user_disconnected } := by
  have hbo : is_occupied c b = true ∧ (record_at c b).is_identified = true := by
    simpa [holds_identity] using hbid
  have hflag : c.free_indices[b]? = some true := by simpa [is_occupied] using hbo.1
  obtain ⟨r, hr⟩ := client_array_remove_defined c b hwf hb
  refine ⟨r.1, ?_, own_send_mem_deliveries c b _ hb hbo.1⟩
  simp only [poll_event, hb, hflag, and_self, if_true, poll_disconnect,
    send_connection_state_disconnect c b hwf hb, hr]
  rfl

/-- Concrete instance for the amended C9: `A` (slot 0 of `chat_trio`) closes; sockets 4, 5 and 6
each get one packet. -/
theorem disconnect_broadcast_witness :
    well_formed chat_trio ∧ 0 < chat_trio.capacity ∧ holds_identity chat_trio 0 = true ∧
    ∃ c1, poll_event sample_rodata chat_trio (Event.recv_eof 0) =
        .ok (some (c1,
          [Action.send 4 { id := short_name 65, code := CLIENT_DISCONNECT, message := msg_user_disconnected },
           Action.send 5 { id := short_name 65, code := CLIENT_DISCONNECT, message := msg_user_disconnected },
           Action.send 6 { id := short_name 65, code := CLIENT_DISCONNECT, message := msg_user_disconnected }])) ∧
      Action.send 4 { id := short_name 65, code := CLIENT_DISCONNECT, message := msg_user_disconnected } ∈
        [Action.send 4 { id := short_name 65, code := CLIENT_DISCONNECT, message := msg_user_disconnected },
         Action.send 5 { id := short_name 65, code := CLIENT_DISCONNECT, message := msg_user_disconnected },
         Action.send 6 { id := short_name 65, code := CLIENT_DISCONNECT, message := msg_user_disconnected }] :=
  ⟨by decide, by decide, rfl, disconnect_broadcast chat_trio 0 (by decide) (by decide) rfl⟩

/-- C9 as stated fails on the server: with `B` (slot 0, socket 4) and `C` (slot 1, socket 5)
identified, a zero-byte receive on slot 0 sends the `CLIENT_DISCONNECT` packet on socket 4,
the socket of the disconnecting connection, as well as on socket 5. -/
theorem disconnect_notifies_closing_peer :
    ∃ c acts c1,
      poll_run sample_rodata initial_registry identified_pair_events = .ok (some (c, acts)) ∧
      holds_identity c 0 = true ∧ (record_at c 0).sockfd = 4 ∧
      poll_event sample_rodata c (Event.recv_eof 0) =
        .ok (some (c1,
          [Action.send 4 { id := short_name 66, code := CLIENT_DISCONNECT, message := msg_user_disconnected },
           Action.send 5 { id := short_name 66, code := CLIENT_DISCONNECT, message := msg_user_disconnected }])) :=
  ⟨_, _, _, rfl, rfl, rfl, rfl⟩

/-- C10 (disconnect of an unidentified connection), amended: for a registry whose arrays have
`capacity` entries and an occupied unidentified slot `i`, a zero-byte receive on slot `i`
issues one send of a `CLIENT_DISCONNECT` packet with the stored identity bytes of `i` to every
occupied slot, in index order; an `EBADF` error is handled identically; and when `i` is not the
last slot of the array, the slot is freed: its flag is cleared and its record zeroed. -/
theorem unidentified_disconnect {ro : rodata_t} (c : client_array_t) (i : Nat)
    (hwf : well_formed c) (hi : i < c.capacity) (ho : is_occupied c i = true)
    (_hun : (record_at c i).is_identified = false) :
    ∃ c1,
      poll_event ro c (Event.recv_eof i) =
        .ok (some (c1, deliveries c (fun _ => true)
          { id := memcpy (zeros 15) (record_at c i).ident 14
            code := CLIENT_DISCONNECT
            message := msg_user_disconnected })) ∧
      poll_event ro c (Event.recv_ebadf i) = poll_event ro c (Event.recv_eof i) ∧
      (i + 1 < c.capacity → is_occupied c1 i = false ∧ record_at c1 i = zero_client) := by
  have hflag : c.free_indices[i]? = some true := by simpa [is_occupied] using ho
  have hl1 := hwf.1
  have hl2 := hwf.2.1
  obtain ⟨r, hr⟩ := client_array_remove_defined c i hwf hi
  refine ⟨r.1, ?_, rfl, ?_⟩
  · simp only [poll_event, hi, hflag, and_self, if_true, poll_disconnect,
      send_connection_state_disconnect c i hwf hi, hr]
    rfl
  · intro hlt
    rw [client_array_remove_inner c i hwf hlt ho] at hr
    have hr1 : r.1 = freed c i := by
      have := congrArg Prod.fst (Except.ok.inj hr)
      exact this.symm
    rw [hr1]
    constructor
    · simp [is_occupied, freed, List.getElem?_set, show i < c.free_indices.length by omega]
    · simp [record_at, freed, List.getD_eq_getElem?_getD, List.getElem?_set,
        show i < c.clients.length by omega]

/-- Concrete instance for the amended C10: slot 0 of `full_pair` closes; both sockets get one
packet and slot 0 is freed. -/
theorem unidentified_disconnect_witness :
    well_formed full_pair ∧ 0 < full_pair.capacity ∧ is_occupied full_pair 0 = true ∧
    (record_at full_pair 0).is_identified = false ∧
    ∃ c1,
      poll_event sample_rodata full_pair (Event.recv_eof 0) =
        .ok (some (c1,
          [Action.send 4 { id := zeros 15, code := CLIENT_DISCONNECT, message := msg_user_disconnected },
           Action.send 5 { id := zeros 15, code := CLIENT_DISCONNECT, message := msg_user_disconnected }])) ∧
      poll_event sample_rodata full_pair (Event.recv_ebadf 0) = poll_event sample_rodata full_pair (Event.recv_eof 0) ∧
      (0 + 1 < full_pair.capacity → is_occupied c1 0 = false ∧ record_at c1 0 = zero_client) :=
  ⟨by decide, by decide, rfl, rfl, unidentified_disconnect full_pair 0 (by decide) (by decide) rfl rfl⟩

/-- C10 as stated fails on the server: after two accepts and no identification, a zero-byte
receive (or `EBADF`) on slot 0 sends a `CLIENT_DISCONNECT` packet with an empty identity field
on both sockets. -/
theorem unidentified_disconnect_is_broadcast :
    ∃ c acts c1,
      poll_run sample_rodata initial_registry
        [Event.accept 4 peer_address alloc_null, Event.accept 5 peer_address alloc_null] = .ok (some (c, acts)) ∧
      is_occupied c 0 = true ∧ record_at c 0 = fresh_client 4 ∧
      poll_event sample_rodata c (Event.recv_eof 0) =
        .ok (some (c1,
          [Action.send 4 { id := zeros 15, code := CLIENT_DISCONNECT, message := msg_user_disconnected },
           Action.send 5 { id := zeros 15, code := CLIENT_DISCONNECT, message := msg_user_disconnected }])) ∧
      poll_event sample_rodata c (Event.recv_ebadf 0) = poll_event sample_rodata c (Event.recv_eof 0) :=
  ⟨_, _, _, rfl, rfl, rfl, rfl, rfl⟩

/-- C11 (error packet, then close of the same socket), evaluated on the server: slot 1 holds an
unidentified connection on socket 5 and `A` is identified in slot 0. For each of the five
terminal violations (empty, duplicate and reserved identity, `MESSAGE_TRANS` and
`PRIVATE_MESSAGE` before identification) the handler sends the error packet on socket 5 and
then closes descriptor 0, not socket 5: the descriptor is read from the slot after
`client_array_remove_byref` has zeroed it. The message field of each error packet holds the
literal, its terminator and the read-only data behind it, 127 bytes in all. -/
theorem close_after_removal (ro : rodata_t) :
    ∃ c acts,
      poll_run ro initial_registry setup_events = .ok (some (c, acts)) ∧
      is_occupied c 1 = true ∧ (record_at c 1).sockfd = 5 ∧
      (handle_client_packet ro c 1
          { id := zeros 15, code := CLIENT_IDENT, message := zeros 128 }).map Prod.snd =
        .ok [Action.send 5 { id := SERVER_IDENT ++ zeros 9, code := INVALID_IDENT,
                             message :=
                               MSG_EMPTY_IDENTITY ++ 0 ::
                                 (List.range 101).map (ro MSG_EMPTY_IDENTITY) ++ [0] },
             Action.close 0] ∧
      (handle_client_packet ro c 1
          { id := short_name 65, code := CLIENT_IDENT, message := zeros 128 }).map Prod.snd =
        .ok [Action.send 5 { id := SERVER_IDENT ++ zeros 9, code := INVALID_IDENT,
                             message :=
                               MSG_IDENTITY_EXISTS ++ 0 ::
                                 (List.range 103).map (ro MSG_IDENTITY_EXISTS) ++ [0] },
             Action.close 0] ∧
      (handle_client_packet ro c 1
          { id := SERVER_IDENT ++ zeros 9, code := CLIENT_IDENT, message := zeros 128 }).map
          Prod.snd =
        .ok [Action.send 5 { id := SERVER_IDENT ++ zeros 9, code := INVALID_IDENT,
                             message :=
                               MSG_IDENTITY_EXISTS ++ 0 ::
                                 (List.range 103).map (ro MSG_IDENTITY_EXISTS) ++ [0] },
             Action.close 0] ∧
      (handle_client_packet ro c 1
          { id := zeros 15, code := MESSAGE_TRANS, message := msg_hi }).map Prod.snd =
        .ok [Action.send 5 { id := SERVER_IDENT ++ zeros 9, code := GENERAL_ERROR,
                             message :=
                               MSG_IDENTIFY_TO_CHAT ++ 0 ::
                                 (List.range 100).map (ro MSG_IDENTIFY_TO_CHAT) ++ [0] },
             Action.close 0] ∧
      (handle_client_packet ro c 1
          { id := short_name 65, code := PRIVATE_MESSAGE, message := msg_hi }).map Prod.snd =
        .ok [Action.send 5 { id := SERVER_IDENT ++ zeros 9, code := GENERAL_ERROR,
                             message :=
                               MSG_IDENTIFY_TO_PM ++ 0 ::
                                 (List.range 102).map (ro MSG_IDENTIFY_TO_PM) ++ [0] },
             Action.close 0] :=
  ⟨_, _, rfl, rfl, rfl, rfl, rfl, rfl, rfl, rfl⟩

/-- C15 (get on an out-of-range index), evaluated: on the registry the server starts with
(capacity 64), `client_array_get` on index `2 ^ 64 - 1` computes `idx + 1 = 0`, passes the
bounds test and reads `free_indices[2 ^ 64 - 1]`, outside the array; the other out-of-range
indices are answered with `NULL`. -/
theorem get_wraps_at_max_index :
    initial_registry.capacity = 64 ∧
    client_array_get initial_registry (2 ^ 64 - 1) = .error Fault.outOfBounds ∧
    client_array_get initial_registry 64 = .ok client_ref.null ∧
    client_array_get initial_registry (2 ^ 64 - 2) = .ok client_ref.null :=
  ⟨rfl, rfl, rfl, rfl⟩

/-- C16 (capacity growth preserves data), evaluated on the server registry filled by 64
accepts: when `realloc` moves the block of records during the 65th `client_array_add`, the
capacity becomes 80 but the registry still holds the address of the released block, so the
pointer that `client_array_get` returns for slot 0 does not lead to a record;
`client_array_expand` called directly behaves the same, and when the flag block is moved
its `memset` already writes to released storage. When both blocks are resized in place, all 64
records are returned at their indices. -/
theorem growth_loses_records (ro : rodata_t) :
    ∃ c acts c1 c2,
      poll_run ro initial_registry fill_events = .ok (some (c, acts)) ∧
      c.capacity = 64 ∧ c.size = 64 ∧
      (∀ i < 64, is_occupied c i = true ∧ record_at c i = fresh_client (Int.ofNat i + 4)) ∧
      client_array_add c (fresh_client 68) alloc_moved = .ok (c1, false) ∧
      c1.capacity = 80 ∧
      client_array_get c1 0 = .ok (client_ref.slot 0) ∧
      deref c1 (client_ref.slot 0) = .error Fault.outOfBounds ∧
      client_array_expand c 16 alloc_moved = .ok (c1, false) ∧
      client_array_expand c 16
          { clients_block := .same, flags_block := .moved, fresh := fun _ => zero_client } =
        .error Fault.outOfBounds ∧
      client_array_add c (fresh_client 68) alloc_same = .ok (c2, false) ∧
      c2.capacity = 80 ∧
      (List.range 64).map (fun i => client_array_get c2 i) =
        (List.range 64).map (fun i => .ok (client_ref.slot i)) ∧
      (List.range 64).map (fun i => deref c2 (client_ref.slot i)) =
        (List.range 64).map (fun i => .ok (fresh_client (Int.ofNat i + 4))) := by
  refine ⟨_, _, _, _, rfl, rfl, rfl, ?_, rfl, rfl, rfl, rfl, rfl, rfl, rfl, rfl, rfl, rfl⟩
  decide

/-- C19 (find by identity), evaluated on the server: after one accept no slot holds an
identified connection, and `client_array_contains_ident` on the empty name reports found with
a reference to the unidentified slot 0. A name stored nowhere is reported not found, and
`SERVER` is reported found without a reference. -/
theorem found_without_identified_holder (ro : rodata_t) :
    ∃ c acts,
      poll_run ro initial_registry [Event.accept 4 peer_address alloc_null] = .ok (some (c, acts)) ∧
      (∀ i < c.capacity, holds_identity c i = false) ∧
      client_array_contains_ident c (some client_ref.uninit)
          (pkt_id_mem { id := zeros 15, code := PRIVATE_MESSAGE, message := msg_hi }) =
        .ok (true, some (client_ref.slot 0)) ∧
      client_array_contains_ident c (some client_ref.uninit)
          (pkt_id_mem { id := short_name 90, code := PRIVATE_MESSAGE, message := msg_hi }) =
        .ok (false, some client_ref.uninit) ∧
      client_array_contains_ident c (some client_ref.uninit)
          (pkt_id_mem { id := SERVER_IDENT ++ zeros 9, code := PRIVATE_MESSAGE, message := msg_hi }) =
        .ok (true, some client_ref.uninit) := by
  refine ⟨_, _, rfl, ?_, rfl, rfl, rfl⟩
  decide

/-- C20 (slot index stability), evaluated on `chat_trio`: when `realloc` moves the block of
records, `client_array_expand` and a `client_array_add` that has to expand leave slot 0 flagged
as occupied while its record can no longer be read at index 0 through the registry. Removing
slot 1 by index or by reference leaves slot 0 occupied with its record. -/
theorem expand_loses_slot :
    ∃ c1,
      is_occupied chat_trio 0 = true ∧ deref chat_trio (client_ref.slot 0) = .ok (named_client 4 65) ∧
      client_array_expand chat_trio 16 alloc_moved = .ok (c1, false) ∧
      is_occupied c1 0 = true ∧ deref c1 (client_ref.slot 0) = .error Fault.outOfBounds ∧
      client_array_add chat_trio (fresh_client 7) alloc_moved = .ok (c1, false) ∧
      (client_array_remove chat_trio 1).map
          (fun r => (r.2, is_occupied r.1 0, deref r.1 (client_ref.slot 0))) =
        .ok (true, true, .ok (named_client 4 65)) ∧
      (client_array_remove_byref chat_trio 1).map
          (fun r => (r.2, is_occupied r.1 0, deref r.1 (client_ref.slot 0))) =
        .ok (true, true, .ok (named_client 4 65)) :=
  ⟨_, rfl, rfl, rfl, rfl, rfl, rfl, rfl, rfl⟩

/-- C12 (pre-identification rejection): for a registry whose arrays have `capacity` entries and
an occupied unidentified sender in slot `s`, handling a `MESSAGE_TRANS` or `PRIVATE_MESSAGE`
packet issues exactly one send, a `GENERAL_ERROR` packet on the socket of the sender (followed
by one `close`), and frees slot `s`: its flag is cleared, its record zeroed, `size` is
decremented by one in `size_t` arithmetic, and every other slot keeps its flag and record. -/
theorem pre_identification_rejection {ro : rodata_t} (c : client_array_t) (s : Nat)
    (pkt : client_pkt_t)
    (hwf : well_formed c) (hs : s < c.capacity) (ho : is_occupied c s = true)
    (hun : (record_at c s).is_identified = false)
    (hcode : pkt.code = MESSAGE_TRANS ∨ pkt.code = PRIVATE_MESSAGE) :
    ∃ c1 msg,
      handle_client_packet ro c s pkt =
        .ok (c1, [Action.send (record_at c s).sockfd
                    { id := SERVER_IDENT ++ zeros 9, code := GENERAL_ERROR, message := msg },
                  Action.close 0]) ∧
      is_occupied c1 s = false ∧ record_at c1 s = zero_client ∧
      c1.size = (c.size + SIZE_MOD - 1) % SIZE_MOD ∧ (0 < c.size → c1.size + 1 = c.size) ∧
      c1.capacity = c.capacity ∧
      ∀ j, j ≠ s → is_occupied c1 j = is_occupied c j ∧ record_at c1 j = record_at c j := by
  have hlen : s < c.clients.length := by rw [hwf.1]; exact hs
  have hfacts : is_occupied (freed c s) s = false ∧ record_at (freed c s) s = zero_client ∧
      (freed c s).size = (c.size + SIZE_MOD - 1) % SIZE_MOD ∧
      (0 < c.size → (freed c s).size + 1 = c.size) ∧ (freed c s).capacity = c.capacity ∧
      ∀ j, j ≠ s → is_occupied (freed c s) j = is_occupied c j ∧
        record_at (freed c s) j = record_at c j :=
    ⟨is_occupied_freed_self c s, record_at_freed_self c s hlen, rfl, size_freed c s hwf, rfl,
      fun j hj => ⟨is_occupied_freed_other c s j hj, record_at_freed_other c s j hj⟩⟩
  rcases hcode with hc | hc
  · refine ⟨freed c s, memcpy (zeros 128) (literal_mem ro MSG_IDENTIFY_TO_CHAT) 127, ?_, hfacts⟩
    have hne : ¬ (MESSAGE_TRANS = CLIENT_IDENT) := by decide
    rw [handle_client_packet, clients_getElem? c s hlen]
    simp only [hc, hne, if_false, if_true, hun, Bool.not_false,
      terminate_sender_occupied c s _ _ hwf hs ho]
    rfl
  · refine ⟨freed c s, memcpy (zeros 128) (literal_mem ro MSG_IDENTIFY_TO_PM) 127, ?_, hfacts⟩
    have hne1 : ¬ (PRIVATE_MESSAGE = CLIENT_IDENT) := by decide
    have hne2 : ¬ (PRIVATE_MESSAGE = MESSAGE_TRANS) := by decide
    rw [handle_client_packet, clients_getElem? c s hlen]
    simp only [hc, hne1, hne2, if_false, if_true, hun, Bool.not_false,
      terminate_sender_occupied c s _ _ hwf hs ho]
    rfl

/-- Concrete instance for C12: the unidentified connection in the last slot of `full_pair`
sends a `MESSAGE_TRANS` packet. -/
theorem pre_identification_rejection_witness :
    well_formed full_pair ∧ 1 < full_pair.capacity ∧ is_occupied full_pair 1 = true ∧
    (record_at full_pair 1).is_identified = false ∧
    ∃ c1 msg,
      handle_client_packet sample_rodata full_pair 1
          { id := short_name 90, code := MESSAGE_TRANS, message := msg_hi } =
        .ok (c1, [Action.send 5
                    { id := SERVER_IDENT ++ zeros 9, code := GENERAL_ERROR, message := msg },
                  Action.close 0]) ∧
      is_occupied c1 1 = false ∧ record_at c1 1 = zero_client ∧
      c1.size = (2 + SIZE_MOD - 1) % SIZE_MOD ∧ (0 < 2 → c1.size + 1 = 2) ∧
      c1.capacity = 2 ∧
      ∀ j, j ≠ 1 → is_occupied c1 j = is_occupied full_pair j ∧
        record_at c1 j = record_at full_pair j :=
  ⟨by decide, by decide, rfl, rfl,
    pre_identification_rejection full_pair 1
      { id := short_name 90, code := MESSAGE_TRANS, message := msg_hi }
      (by decide) (by decide) rfl rfl (Or.inl rfl)⟩

/-- C13 (successful identification): for a registry whose arrays have `capacity` entries and
whose occupied slots hold records of the data model, and an occupied unidentified sender in
slot `s`, handling a `CLIENT_IDENT` packet whose name is non-empty, at most 14 bytes long, not
the identity of any identified connection and not `SERVER` stores the name (the first 14
identity bytes, zero-terminated) in slot `s`, sets `is_identified`, sends one `CONNECT_ACK` on
the socket of the sender and then one `CLIENT_CONNECT` packet carrying the name to every
occupied slot other than `s`, in index order; no other record, no flag, and neither `size` nor
`capacity` changes. -/
theorem successful_identification {ro : rodata_t} (c : client_array_t) (s : Nat)
    (pkt : client_pkt_t)
    (hwf : well_formed c) (hval : records_valid c)
    (hs : s < c.capacity) (ho : is_occupied c s = true)
    (hun : (record_at c s).is_identified = false)
    (hcode : pkt.code = CLIENT_IDENT) (hid : pkt.id.length = 15)
    (hne : cstr (pkt_id_mem pkt) ≠ [])
    (hlen : (cstr (pkt_id_mem pkt)).length ≤ 14)
    (hfree : ∀ j < c.capacity, holds_identity c j = true →
      cstr (record_at c j).ident ≠ cstr (pkt_id_mem pkt))
    (hsrv : cstr (pkt_id_mem pkt) ≠ SERVER_IDENT) :
    ∃ c1 msg,
      handle_client_packet ro c s pkt =
        .ok (c1,
          Action.send (record_at c s).sockfd
              { id := SERVER_IDENT ++ zeros 9, code := CONNECT_ACK, message := msg } ::
            deliveries c (fun j => j != s)
              { id := pkt.id.take 14 ++ [0], code := CLIENT_CONNECT,
                message := MSG_USER_CONNECTED ++ zeros 114 }) ∧
      cstr (pkt.id.take 14 ++ [0]) = cstr (pkt_id_mem pkt) ∧
      record_at c1 s =
        { sockfd := (record_at c s).sockfd, address := (record_at c s).address,
          ident := pkt.id.take 14 ++ [0], is_identified := true } ∧
      (∀ j, j ≠ s → record_at c1 j = record_at c j) ∧
      (∀ j, is_occupied c1 j = is_occupied c j) ∧
      c1.size = c.size ∧ c1.capacity = c.capacity := by
  have hl : s < c.clients.length := by rw [hwf.1]; exact hs
  have htake : (pkt_id_mem pkt).take 14 = pkt.id.take 14 := by
    rw [pkt_id_mem, List.take_append_of_le_length (by omega)]
  have htl : (pkt.id.take 14).length = 14 := by simp [hid]
  have hstored : memcpy (record_at c s).ident (pkt_id_mem pkt) 14 = pkt.id.take 14 ++ [0] := by
    rw [memcpy, htake, (hval s hs ho).1]
  have hcarried : memcpy (zeros 15) (pkt.id.take 14 ++ [0]) 14 = pkt.id.take 14 ++ [0] := by
    rw [memcpy, List.take_append_of_le_length (by omega), List.take_of_length_le (by omega)]
    rfl
  have hname : cstr (pkt.id.take 14 ++ [0]) = cstr (pkt_id_mem pkt) := by
    rw [← htake]; exact cstr_take_terminated 14 _ hlen
  have hlen0 : ¬ ((cstr (pkt_id_mem pkt)).length = 0) := by
    intro h; exact hne (List.length_eq_zero.mp h)
  have habsent : client_array_contains_ident c none (pkt_id_mem pkt) = .ok (false, none) := by
    apply contains_ident_absent c _ hwf _ hsrv
    intro j hj hjo
    cases hjid : (record_at c j).is_identified with
    | false =>
      intro h
      apply hne
      rw [← h]
      exact (hval j hj hjo).2.mp hjid
    | true =>
      apply hfree j hj
      simp [holds_identity, hjo, hjid]
  let cl1 : client_t :=
    { sockfd := (record_at c s).sockfd, address := (record_at c s).address,
      ident := pkt.id.take 14 ++ [0], is_identified := false }
  let c0 : client_array_t :=
    { clients := c.clients.set s cl1, size := c.size, capacity := c.capacity,
      free_indices := c.free_indices }
  have hwf0 : well_formed c0 := by
    refine ⟨?_, hwf.2.1, hwf.2.2.1, hwf.2.2.2⟩
    simp only [c0, List.length_set]
    exact hwf.1
  have hl0 : s < c0.clients.length := by
    simp only [c0, List.length_set]
    exact hl
  have hrec0 : record_at c0 s = cl1 := by
    simp [record_at, c0, List.getD_eq_getElem?_getD, List.getElem?_set, hl]
  have hdel : deliveries c0 (fun j => j != s)
        (connection_state_pkt cl1 true) =
      deliveries c (fun j => j != s)
        { id := pkt.id.take 14 ++ [0], code := CLIENT_CONNECT,
          message := MSG_USER_CONNECTED ++ zeros 114 } := by
    have hp : connection_state_pkt cl1 true =
        { id := pkt.id.take 14 ++ [0], code := CLIENT_CONNECT,
          message := MSG_USER_CONNECTED ++ zeros 114 } := by
      simp only [connection_state_pkt, cl1, if_true, zero_pkt, hcarried]
      rfl
    rw [hp]
    apply deliveries_congr c c0 _ _ rfl rfl
    intro j hj
    have hjs : j ≠ s := by simpa using hj
    have hsj : s ≠ j := fun e => hjs e.symm
    simp [record_at, c0, List.getD_eq_getElem?_getD, List.getElem?_set, hsj]
  have hsend : send_connection_state c0 s true =
      .ok (deliveries c (fun j => j != s)
        { id := pkt.id.take 14 ++ [0], code := CLIENT_CONNECT,
          message := MSG_USER_CONNECTED ++ zeros 114 }) := by
    rw [send_connection_state, clients_getElem? c0 s hl0, hrec0]
    simp only [if_true]
    rw [broadcast_message_slot c0 s _ hwf0, hdel]
  refine ⟨{ clients := (c.clients.set s cl1).set s { cl1 with is_identified := true },
            size := c.size, capacity := c.capacity, free_indices := c.free_indices },
    memcpy (zeros 128) (literal_mem ro MSG_WELCOME) 127,
    ?_, hname, ?_, ?_, ?_, rfl, rfl⟩
  · rw [handle_client_packet, clients_getElem? c s hl]
    simp only [hcode, if_true, hun, Bool.false_eq_true, if_false, hlen0, habsent, hstored]
    rw [show send_connection_state
        { clients := c.clients.set s cl1, size := c.size, capacity := c.capacity,
          free_indices := c.free_indices } s true = _ from hsend]
    rfl
  · simp [record_at, List.getD_eq_getElem?_getD, List.getElem?_set, hl, cl1]
  · intro j hjs
    have hsj : s ≠ j := fun e => hjs e.symm
    simp [record_at, List.getD_eq_getElem?_getD, List.getElem?_set, hsj]
  · intro j
    simp [is_occupied]

/-- Concrete instance for C13: the unidentified connection in slot 2 of `chat_trio` identifies
itself as `C`; the sender gets the `CONNECT_ACK`, then `A` and `B` are notified. -/
theorem successful_identification_witness :
    well_formed chat_trio ∧ records_valid chat_trio ∧ is_occupied chat_trio 2 = true ∧
    (record_at chat_trio 2).is_identified = false ∧
    cstr (pkt_id_mem { id := short_name 67, code := CLIENT_IDENT, message := zeros 128 }) = [67] ∧
    deliveries chat_trio (fun j => j != 2)
        { id := short_name 67, code := CLIENT_CONNECT,
          message := MSG_USER_CONNECTED ++ zeros 114 } =
      [Action.send 4 { id := short_name 67, code := CLIENT_CONNECT,
                       message := MSG_USER_CONNECTED ++ zeros 114 },
       Action.send 5 { id := short_name 67, code := CLIENT_CONNECT,
                       message := MSG_USER_CONNECTED ++ zeros 114 }] ∧
    ∃ c1 msg,
      handle_client_packet sample_rodata chat_trio 2
          { id := short_name 67, code := CLIENT_IDENT, message := zeros 128 } =
        .ok (c1,
          Action.send (record_at chat_trio 2).sockfd
              { id := SERVER_IDENT ++ zeros 9, code := CONNECT_ACK, message := msg } ::
            deliveries chat_trio (fun j => j != 2)
              { id := (short_name 67).take 14 ++ [0], code := CLIENT_CONNECT,
                message := MSG_USER_CONNECTED ++ zeros 114 }) ∧
      cstr ((short_name 67).take 14 ++ [0]) =
        cstr (pkt_id_mem { id := short_name 67, code := CLIENT_IDENT, message := zeros 128 }) ∧
      record_at c1 2 =
        { sockfd := (record_at chat_trio 2).sockfd, address := (record_at chat_trio 2).address,
          ident := (short_name 67).take 14 ++ [0], is_identified := true } ∧
      (∀ j, j ≠ 2 → record_at c1 j = record_at chat_trio j) ∧
      (∀ j, is_occupied c1 j = is_occupied chat_trio j) ∧
      c1.size = chat_trio.size ∧ c1.capacity = chat_trio.capacity :=
  ⟨by decide, by decide, rfl, rfl, rfl, rfl,
    successful_identification chat_trio 2
      { id := short_name 67, code := CLIENT_IDENT, message := zeros 128 }
      (by decide) (by decide) (by decide) rfl rfl rfl rfl (by decide) (by decide) (by decide)
      (by decide)⟩

/-- C14 (identity rejection): for a registry whose arrays have `capacity` entries and an
occupied unidentified sender in slot `s`, handling a `CLIENT_IDENT` packet whose name is empty,
equals the identity of an identified connection, or is `SERVER` issues exactly one send, an
`INVALID_IDENT` packet on the socket of the sender (followed by one `close`), and frees slot
`s`; every other slot keeps its flag and record. -/
theorem identity_rejection {ro : rodata_t} (c : client_array_t) (s : Nat) (pkt : client_pkt_t)
    (hwf : well_formed c) (hs : s < c.capacity) (ho : is_occupied c s = true)
    (hun : (record_at c s).is_identified = false)
    (hcode : pkt.code = CLIENT_IDENT)
    (hname : cstr (pkt_id_mem pkt) = [] ∨
      (∃ j, j < c.capacity ∧ holds_identity c j = true ∧
        cstr (record_at c j).ident = cstr (pkt_id_mem pkt)) ∨
      cstr (pkt_id_mem pkt) = SERVER_IDENT) :
    ∃ c1 msg,
      handle_client_packet ro c s pkt =
        .ok (c1, [Action.send (record_at c s).sockfd
                    { id := SERVER_IDENT ++ zeros 9, code := INVALID_IDENT, message := msg },
                  Action.close 0]) ∧
      is_occupied c1 s = false ∧ record_at c1 s = zero_client ∧
      ∀ j, j ≠ s → is_occupied c1 j = is_occupied c j ∧ record_at c1 j = record_at c j := by
  have hlen : s < c.clients.length := by rw [hwf.1]; exact hs
  have hfacts : is_occupied (freed c s) s = false ∧ record_at (freed c s) s = zero_client ∧
      ∀ j, j ≠ s → is_occupied (freed c s) j = is_occupied c j ∧
        record_at (freed c s) j = record_at c j :=
    ⟨is_occupied_freed_self c s, record_at_freed_self c s hlen,
      fun j hj => ⟨is_occupied_freed_other c s j hj, record_at_freed_other c s j hj⟩⟩
  by_cases hempty : cstr (pkt_id_mem pkt) = []
  · refine ⟨freed c s, memcpy (zeros 128) (literal_mem ro MSG_EMPTY_IDENTITY) 127, ?_, hfacts⟩
    rw [handle_client_packet, clients_getElem? c s hlen]
    simp only [hcode, if_true, hun, Bool.false_eq_true, if_false, hempty, List.length_nil,
      terminate_sender_occupied c s _ _ hwf hs ho]
    rfl
  · refine ⟨freed c s, memcpy (zeros 128) (literal_mem ro MSG_IDENTITY_EXISTS) 127, ?_, hfacts⟩
    have hlen0 : ¬ ((cstr (pkt_id_mem pkt)).length = 0) := by
      intro h; exact hempty (List.length_eq_zero.mp h)
    have hfound : ∃ r, client_array_contains_ident c none (pkt_id_mem pkt) = .ok (true, r) := by
      rw [client_array_contains_ident]
      rcases contains_scan_result c (pkt_id_mem pkt) c.capacity 0
          (by rw [hwf.2.1]; omega) (by rw [hwf.1]; omega) with
        ⟨hnone, hall⟩ | ⟨k, hk, _, _, _, _⟩
      · rw [hnone]
        rcases hname with h1 | ⟨j, hj, hjid, hjn⟩ | h3
        · exact absurd h1 hempty
        · exfalso
          have hjo : is_occupied c j = true ∧ (record_at c j).is_identified = true := by
            simpa [holds_identity] using hjid
          apply hall j (Nat.zero_le j) (by omega)
          exact ⟨hjo.1, by simp [streq, hjn]⟩
        · have : streq (pkt_id_mem pkt) SERVER_IDENT = true := by
            rw [streq, h3]; decide
          simp [this]
      · rw [hk]; exact ⟨_, rfl⟩
    obtain ⟨r, hr⟩ := hfound
    rw [handle_client_packet, clients_getElem? c s hlen]
    simp only [hcode, if_true, hun, Bool.false_eq_true, if_false, hlen0, hr,
      terminate_sender_occupied c s _ _ hwf hs ho]
    rfl

/-- Concrete instance for C14: the unidentified connection in slot 2 of `chat_trio` asks for
the name `A`, which slot 0 holds. -/
theorem identity_rejection_witness :
    well_formed chat_trio ∧ 2 < chat_trio.capacity ∧ is_occupied chat_trio 2 = true ∧
    (record_at chat_trio 2).is_identified = false ∧ holds_identity chat_trio 0 = true ∧
    ∃ c1 msg,
      handle_client_packet sample_rodata chat_trio 2
          { id := short_name 65, code := CLIENT_IDENT, message := zeros 128 } =
        .ok (c1, [Action.send 6
                    { id := SERVER_IDENT ++ zeros 9, code := INVALID_IDENT, message := msg },
                  Action.close 0]) ∧
      is_occupied c1 2 = false ∧ record_at c1 2 = zero_client ∧
      ∀ j, j ≠ 2 → is_occupied c1 j = is_occupied chat_trio j ∧
        record_at c1 j = record_at chat_trio j :=
  ⟨by decide, by decide, rfl, rfl, rfl,
    identity_rejection chat_trio 2
      { id := short_name 65, code := CLIENT_IDENT, message := zeros 128 }
      (by decide) (by decide) rfl rfl rfl (Or.inr (Or.inl ⟨0, by decide, rfl, rfl⟩))⟩

/-- Along executions without undefined behaviour that start from `client_array_create` on a
zero-initialised structure, `size` equals the number of occupied slots and is at most
`capacity`. An execution that runs into an access outside the arrays yields no registry here. -/
theorem size_counts_occupied (capacity : Nat) (calls : List registry_call)
    (c : client_array_t) (hcap : capacity < SIZE_MOD)
    (hrun : run_calls (client_array_create zero_registry capacity).1 calls = .ok c) :
    c.size = occupied_count c ∧ c.size ≤ c.capacity := by
  have h0 : size_inv (client_array_create zero_registry capacity).1 := by
    refine ⟨by simp [client_array_create], ?_, hcap⟩
    simp [client_array_create, zero_registry, List.count_replicate]
  obtain ⟨h1, h2, _⟩ := size_inv_run_calls calls _ c h0 hrun
  rw [occupied_count_eq c h1]
  refine ⟨h2, ?_⟩
  rw [h2, ← h1]
  exact List.count_le_length true c.free_indices

/-- C17 (size counts the occupied slots), evaluated: `client_array_create` does not assign
`size`, so on a structure whose `size` field holds 7 it yields a registry of capacity 2 with no
occupied slot and `size` 7. From a zero-initialised structure, two adds fill a registry of
capacity 2 (`size` 2, two occupied slots); a third add whose `realloc` fails finds no free
slot, gets `failed = true` from `client_array_expand`, does not return and stores at index
`capacity + 1 = 3`, outside both arrays, after which the source increments `size` to 3. -/
theorem size_departs_from_count :
    ((client_array_create { clients := [], size := 7, capacity := 0, free_indices := [] } 2).1.size
        = 7 ∧
      (client_array_create { clients := [], size := 7, capacity := 0, free_indices := [] }
        2).1.capacity = 2 ∧
      occupied_count
        (client_array_create { clients := [], size := 7, capacity := 0, free_indices := [] } 2).1
        = 0) ∧
    run_calls (client_array_create zero_registry 2).1
        [registry_call.add (fresh_client 4) alloc_null,
         registry_call.add (fresh_client 5) alloc_null] = .ok full_pair ∧
    (full_pair.size = 2 ∧ occupied_count full_pair = 2 ∧ full_pair.capacity = 2) ∧
    add_scan full_pair 0 full_pair.capacity = .ok none ∧
    client_array_expand full_pair DEFAULT_EXPAND_SIZE alloc_null = .ok (full_pair, true) ∧
    full_pair.capacity + 1 = 3 ∧ full_pair.clients.length = 2 ∧
    full_pair.free_indices.length = 2 ∧ (full_pair.size + 1) % SIZE_MOD = 3 ∧
    add_store full_pair (full_pair.capacity + 1) (fresh_client 6) = .error Fault.outOfBounds ∧
    client_array_add full_pair (fresh_client 6) alloc_null = .error Fault.outOfBounds ∧
    run_calls (client_array_create zero_registry 2).1
        [registry_call.add (fresh_client 4) alloc_null,
         registry_call.add (fresh_client 5) alloc_null,
         registry_call.add (fresh_client 6) alloc_null] = .error Fault.outOfBounds := by
  refine ⟨⟨rfl, rfl, rfl⟩, rfl, ⟨rfl, rfl, rfl⟩, rfl, rfl, rfl, rfl, rfl, ?_, rfl, rfl, rfl⟩
  decide

/-- C18 (reserved identity): in every registry the polling loop reaches from its initial registry
by accepts, disconnects and received packets (of the field sizes of `client_pkt_t`, any
content), no occupied slot stores the identity `SERVER`. -/
theorem no_slot_holds_server {ro : rodata_t} (evs : List Event) (c : client_array_t)
    (acts : List Action)
    (hwf : ∀ ev ∈ evs, event_wf ev)
    (hrun : poll_run ro initial_registry evs = .ok (some (c, acts))) :
    ∀ i, is_occupied c i = true → cstr (record_at c i).ident ≠ SERVER_IDENT := by
  intro i _
  have hinv := idents_ok_poll_run evs initial_registry c acts idents_ok_initial hwf hrun
  rw [record_at, List.getD_eq_getElem?_getD]
  cases hr : c.clients[i]? with
  | none => exact ident_ok_zero_client.2
  | some r => exact (hinv r (List.getElem?_mem hr)).2

/-- Concrete instance for C18: a connection that asks for the reserved name is removed, and the
remaining occupied slot does not hold it. -/
theorem no_slot_holds_server_witness :
    (∀ ev ∈ reserved_name_events, event_wf ev) ∧
    ∃ c acts,
      poll_run sample_rodata initial_registry reserved_name_events = .ok (some (c, acts)) ∧
      is_occupied c 0 = true ∧ is_occupied c 1 = false ∧
      ∀ i, is_occupied c i = true → cstr (record_at c i).ident ≠ SERVER_IDENT :=
  ⟨by decide, _, _, rfl, rfl, rfl, @no_slot_holds_server sample_rodata reserved_name_events _ _ (by decide) rfl⟩

/-- C21 (unidentified slots have an empty identity): in every registry the polling loop reaches
from its initial registry by accepts, disconnects and received packets of any content, every
occupied slot with `is_identified` clear has an all-zero identity field; and in every further
event each slot either keeps its identity field, has it zeroed, or goes from `is_identified`
clear to `is_identified` set in that same step, so the identity is written only in the handler
step that sets the flag. -/
theorem unidentified_identity_zero {ro : rodata_t} (evs : List Event) (c : client_array_t)
    (acts : List Action)
    (hrun : poll_run ro initial_registry evs = .ok (some (c, acts))) :
    (∀ i, is_occupied c i = true → (record_at c i).is_identified = false →
      (record_at c i).ident = zeros 15) ∧
    (∀ ev c1 acts1, poll_event ro c ev = .ok (some (c1, acts1)) → ∀ i,
      (record_at c1 i).ident = (record_at c i).ident ∨
        (record_at c1 i).ident = zeros 15 ∨
        ((record_at c i).is_identified = false ∧ (record_at c1 i).is_identified = true)) := by
  have hinv := unidentified_zero_poll_run evs initial_registry c acts unidentified_zero_initial hrun
  constructor
  · intro i _ hun
    rw [record_at, List.getD_eq_getElem?_getD] at hun ⊢
    cases hr : c.clients[i]? with
    | none => rfl
    | some r =>
      rw [hr] at hun
      exact hinv r (List.getElem?_mem hr) hun
  · intro ev c1 acts1 hev i
    exact ident_written_with_flag c.clients c1.clients (clients_step_poll_event c c1 ev acts1 hev) i

/-- Concrete instance for C21: after two accepts and the identification of slot 0 as `A`,
slot 1 is occupied and unidentified. -/
theorem unidentified_identity_zero_witness :
    ∃ c acts,
      poll_run sample_rodata initial_registry setup_events = .ok (some (c, acts)) ∧
      is_occupied c 1 = true ∧ (record_at c 1).is_identified = false ∧
      ((∀ i, is_occupied c i = true → (record_at c i).is_identified = false →
          (record_at c i).ident = zeros 15) ∧
        (∀ ev c1 acts1, poll_event sample_rodata c ev = .ok (some (c1, acts1)) → ∀ i,
          (record_at c1 i).ident = (record_at c i).ident ∨
            (record_at c1 i).ident = zeros 15 ∨
            ((record_at c i).is_identified = false ∧ (record_at c1 i).is_identified = true))) :=
  ⟨_, _, rfl, rfl, rfl, unidentified_identity_zero setup_events _ _ rfl⟩

end ChatServer
